import Mathlib

/-!
# Digital-vault: document statistics, document store and authentication gate

A shallow embedding of the React front end of the repository
(`src/components/Dashboard.js`, `src/App.js`, `src/AppWithAuth.js`,
`src/components/Login.js`) together with the properties that its
specification states about it.

Conventions of the embedding

* A JavaScript number that the program only ever uses as an integer (a byte
  count, a tally, a time value in milliseconds) is an `Int`.
* The one quotient the program computes, the percentage of a file type, is
  computed as JavaScript does, by rounding to the nearest double.
* A field of a document that may be absent (or `null`) is an `Option`.
* A `Date` is its time value, `none` standing for an Invalid Date (`NaN`).
* A plain object used as a dictionary (`{}`) is the list of its own enumerable
  properties in creation order, read through `Object.prototype` exactly as
  JavaScript does.
* An asynchronous handler is a function of the outcomes of the requests it
  awaits; it returns the state after all its state updates have been applied
  and the list of the network events it caused, in order.
* `localStorage` is the list of its entries; its calls do not throw.
-/

namespace DigitalVault

/-! ## JavaScript values and plain objects -/

/-- Primitive values that the statistics code stores in an object. -/
inductive Prim where
  | nan : Prim
  | num (n : Int) : Prim
  | str (s : String) : Prim
  deriving DecidableEq, Repr

/-- Result of reading a property `o[k]` of a plain object. -/
inductive Value where
  | undefined : Value
  | prim (p : Prim) : Value
  | fn (name : String) : Value
  | objectPrototype : Value
  deriving DecidableEq, Repr

/-- Own enumerable properties of a plain object created by `{}`, in creation
order; every such object has `Object.prototype` as its prototype. -/
abbrev JsObject := List (String × Prim)

/-- Names of the function-valued properties of `Object.prototype`, each with
the name of the function it holds. -/
def objectPrototypeMethods : List (String × String) :=
  [("constructor", "Object"),
   ("__defineGetter__", "__defineGetter__"),
   ("__defineSetter__", "__defineSetter__"),
   ("hasOwnProperty", "hasOwnProperty"),
   ("__lookupGetter__", "__lookupGetter__"),
   ("__lookupSetter__", "__lookupSetter__"),
   ("isPrototypeOf", "isPrototypeOf"),
   ("propertyIsEnumerable", "propertyIsEnumerable"),
   ("toString", "toString"),
   ("valueOf", "valueOf"),
   ("toLocaleString", "toLocaleString")]

/-- Own property lookup (`Object.hasOwn` / own `[[Get]]`). -/
def ownGet : JsObject → String → Option Prim
  | [], _ => none
  | (k, v) :: rest, key => if k = key then some v else ownGet rest key

/-- Property read `o[key]`: the own property if there is one, otherwise what
`Object.prototype` provides under that name (the `__proto__` getter returns the
prototype object itself), otherwise `undefined`. -/
def getProp (o : JsObject) (key : String) : Value :=
  match ownGet o key with
  | some v => .prim v
  | none =>
    if key = "__proto__" then .objectPrototype
    else match objectPrototypeMethods.lookup key with
      | some name => .fn name
      | none => .undefined

/-- Replace the value of an own property, or append it as the newest one. -/
def ownSet : JsObject → String → Prim → JsObject
  | [], key, v => [(key, v)]
  | (k, w) :: rest, key, v =>
    if k = key then (k, v) :: rest else (k, w) :: ownSet rest key v

/-- Property write `o[key] = v` of a primitive `v`. Writing `__proto__` runs the
setter inherited from `Object.prototype`, which ignores every value that is
neither an object nor `null`; every other name becomes (or updates) an own
property. -/
def setProp (o : JsObject) (key : String) (v : Prim) : JsObject :=
  if key = "__proto__" then o else ownSet o key v

/-- JavaScript truthiness (`ToBoolean`). -/
def truthy : Value → Bool
  | .undefined => false
  | .prim .nan => false
  | .prim (.num n) => n != 0
  | .prim (.str s) => s != ""
  | .fn _ => true
  | .objectPrototype => true

/-- Source text that `String(f)` gives for a built-in function, in the layout
V8 prints it. -/
def nativeSource (name : String) : String :=
  "function " ++ name ++ "() \x7b [native code] \x7d"

/-- The expression `(x || 0) + 1`. A number is incremented; anything that is
converted to a string by `+` has the character `1` appended. -/
def orZeroPlusOne (x : Value) : Prim :=
  match (if truthy x then x else .prim (.num 0)) with
  | .undefined => .nan
  | .prim .nan => .nan
  | .prim (.num n) => .num (n + 1)
  | .prim (.str s) => .str (s ++ "1")
  | .fn name => .str (nativeSource name ++ "1")
  | .objectPrototype => .str "[object Object]1"

/-- Whether a property name is an array index: a canonical decimal numeral
below `2^32 - 1`. -/
def isArrayIndex (k : String) : Bool :=
  match k.toList with
  | [] => false
  | c :: cs =>
    (c :: cs).all Char.isDigit && (cs.isEmpty || c != '0')
      && decide ((c :: cs).foldl (fun n d => 10 * n + (d.toNat - 48)) 0 < 2 ^ 32 - 1)

/-- Numeric value of an array-index property name. -/
def indexValue (k : String) : Nat :=
  k.toList.foldl (fun n d => 10 * n + (d.toNat - 48)) 0

/-- Insert an entry into a list of index-named entries sorted by index. -/
def insertByIndex (e : String × Prim) : List (String × Prim) → List (String × Prim)
  | [] => [e]
  | x :: xs =>
    if indexValue e.1 ≤ indexValue x.1 then e :: x :: xs else x :: insertByIndex e xs

/-- The call `Object.entries(o)`: array-index names first in ascending numeric
order, then the remaining names in creation order. -/
def objectEntries (o : JsObject) : List (String × Prim) :=
  (o.filter (fun e => isArrayIndex e.1)).foldr insertByIndex []
    ++ o.filter (fun e => !isArrayIndex e.1)

/-! ## Documents -/

/-- A document as delivered by the API server: `fileType` a string and
`fileSize` an integer number of bytes, each `none` when the field is missing or
`null`; `uploadDate` is the time value of `new Date(doc.uploadDate)`, `none`
when that is an Invalid Date. -/
structure Document where
  id : Nat
  name : String
  description : String
  fileName : String
  fileType : Option String
  fileSize : Option Int
  uploadDate : Option Int
  deriving DecidableEq, Repr

/-- The expression `doc.fileSize || 0`. -/
def sizeOrZero (d : Document) : Int :=
  match d.fileSize with
  | some n => if n = 0 then 0 else n
  | none => 0

/-- The expression `doc.fileType || 'Unknown'`. -/
def typeOrUnknown (d : Document) : String :=
  match d.fileType with
  | some t => if t = "" then "Unknown" else t
  | none => "Unknown"

/-- Comparison `a > b` of two dates: false as soon as one is invalid. -/
def dateGt : Option Int → Option Int → Bool
  | some a, some b => decide (a > b)
  | _, _ => false

/-! ## Dashboard statistics (`Dashboard.js`) -/

/-- The `stats` state of the dashboard. -/
structure Stats where
  totalDocuments : Nat
  totalSize : Int
  recentUploads : Nat
  fileTypes : JsObject
  deriving DecidableEq, Repr

/-- Initial value of the `stats` state. -/
def Stats.initial : Stats :=
  { totalDocuments := 0, totalSize := 0, recentUploads := 0, fileTypes := [] }

/-- The reducer of the grouping: with `type = doc.fileType || 'Unknown'` it
performs `acc[type] = (acc[type] || 0) + 1` and returns `acc`. -/
def countType (acc : JsObject) (doc : Document) : JsObject :=
  let type := typeOrUnknown doc
  setProp acc type (orZeroPlusOne (getProp acc type))

/-- The function `calculateStats(docs)`, as the value it passes to `setStats`;
`now` is the time value of the `new Date()` it reads. -/
def calculateStats (now : Int) (docs : List Document) : Stats :=
  let weekAgo : Option Int := some (now - 7 * 24 * 60 * 60 * 1000)
  let totalSize := docs.foldl (fun sum doc => sum + sizeOrZero doc) 0
  let recentUploads := (docs.filter (fun doc => dateGt doc.uploadDate weekAgo)).length
  let fileTypes := docs.foldl countType []
  { totalDocuments := docs.length
    totalSize := totalSize
    recentUploads := recentUploads
    fileTypes := fileTypes }

/-- The call `s.split('/')` on the characters of a string. -/
def splitSlash : List Char → List (List Char)
  | [] => [[]]
  | c :: cs =>
    if c = '/' then [] :: splitSlash cs
    else match splitSlash cs with
      | [] => [[c]]
      | h :: t => (c :: h) :: t

/-- The expression `type.split('/')[1] || type`. -/
def typeLabel (type : String) : String :=
  match (splitSlash type.toList).get? 1 with
  | some part => if part.isEmpty then type else String.mk part
  | none => type

/-- Decimal digits of `x.toFixed(1)` for the non-negative rational `num / den`,
rounding half up. -/
def toFixed1 (num den : Nat) : String :=
  let tenths := (2 * 10 * num + den) / (2 * den)
  toString (tenths / 10) ++ "." ++ toString (tenths % 10)

/-- A `percentage` field: the number `0`, or the string built by `toFixed(1)`. -/
inductive Percentage where
  | zero : Percentage
  | fixed (s : String) : Percentage
  deriving DecidableEq, Repr

/-- Number of binary digits of `n`, by halving; the first argument bounds the
number of halvings. -/
def bitLengthAux : Nat → Nat → Nat
  | 0, _ => 0
  | fuel + 1, n => if n = 0 then 0 else bitLengthAux fuel (n / 2) + 1

/-- Number of binary digits of `n`. -/
def bitLength (n : Nat) : Nat := bitLengthAux n n

/-- The integer nearest to `a / b`, a tie going to the even one. -/
def roundHalfEven (a b : Nat) : Nat :=
  if 2 * (a % b) < b then a / b
  else if b < 2 * (a % b) then a / b + 1
  else a / b + (a / b) % 2

/-- The double nearest to the positive rational `a / b`, as an exact fraction:
the quotient is scaled by a power of two so as to have 53 binary digits,
rounded to an integer, ties to even, and scaled back (IEEE 754
round-to-nearest in the normal range). -/
def nearestDouble (a b : Nat) : Nat × Nat :=
  if a = 0 then (0, 1)
  else
    let up := bitLength b + 53 - bitLength a
    let down := bitLength a - (bitLength b + 53)
    let n1 := a * 2 ^ up
    let d1 := b * 2 ^ down
    if n1 / d1 < 2 ^ 53 then (roundHalfEven n1 d1 * 2 ^ down, 2 ^ up)
    else (roundHalfEven n1 (2 * d1) * 2 ^ (down + 1), 2 ^ up)

/-- The expression `total > 0 ? ((count / total) * 100).toFixed(1) : 0`. The
division and the multiplication are those of doubles: each result is the double
nearest to the exact one, for a count and a total below `2 ^ 53` as the length
of a collection is; `toFixed(1)` then rounds the exact value of that double. A
count that is not a number is one of the texts built by `orZeroPlusOne`, never
a numeral, and divides to `NaN`. -/
def percentageOf (count : Prim) (total : Nat) : Percentage :=
  if total > 0 then
    match count with
    | .num n =>
      let quotient := nearestDouble n.natAbs total
      let product := nearestDouble (quotient.1 * 100) quotient.2
      if n < 0 then .fixed ("-" ++ toFixed1 product.1 product.2)
      else .fixed (toFixed1 product.1 product.2)
    | _ => .fixed "NaN"
  else .zero

/-- One element of the array built by `getFileTypeDistribution`. -/
structure TypeShare where
  type : String
  count : Prim
  percentage : Percentage
  deriving DecidableEq, Repr

/-- The function `getFileTypeDistribution()`, reading the `stats` state. -/
def getFileTypeDistribution (stats : Stats) : List TypeShare :=
  let total := stats.totalDocuments
  (objectEntries stats.fileTypes).map (fun e =>
    { type := typeLabel e.1, count := e.2, percentage := percentageOf e.2 total })

/-- Sum of the numeric tallies stored in an object. -/
def countSum (o : JsObject) : Int :=
  (o.map (fun e => match e.2 with | .num n => n | _ => 0)).sum

/-! ## Document store (`App.js`) -/

/-- A file chosen in the upload form. -/
structure File where
  name : String
  content : String
  deriving DecidableEq, Repr

/-- The `uploadForm` state: the upload draft. -/
structure UploadForm where
  name : String
  description : String
  file : Option File
  deriving DecidableEq, Repr

/-- The draft `{ name: '', description: '', file: null }`. -/
def UploadForm.empty : UploadForm :=
  { name := "", description := "", file := none }

/-- The state of the `App` component. -/
structure AppState where
  documents : List Document
  loading : Bool
  error : String
  success : String
  searchQuery : String
  uploadForm : UploadForm
  deriving DecidableEq, Repr

/-- Initial values of the `useState` hooks of `App`. -/
def AppState.initial : AppState :=
  { documents := [], loading := true, error := "", success := "",
    searchQuery := "", uploadForm := UploadForm.empty }

/-- The HTTP requests the front end issues through `axios`. -/
inductive Request where
  | getDocuments : Request
  | searchDocuments (query : String) : Request
  | uploadDocument (file : File) (name description : String) : Request
  | downloadDocument (id : Nat) : Request
  | deleteDocument (id : Nat) : Request
  deriving DecidableEq, Repr

/-- Observable effects of a handler, in the order in which they happen. -/
inductive Event where
  | sent (r : Request) : Event
  | resolved (r : Request) : Event
  | rejected (r : Request) : Event
  | confirmed (answer : Bool) : Event
  | timeout (ms : Nat) : Event
  | saved (fileName : String) (content : String) : Event
  | consoleError (message : String) : Event
  deriving DecidableEq, Repr

/-- Part of `fetchDocuments` that runs before its `await`. -/
def fetchDocumentsBegin (s : AppState) : AppState × List Event :=
  ({ s with loading := true }, [.sent .getDocuments])

/-- Part of `fetchDocuments` that runs once the awaited request has settled;
`resp` is `some data` for a response and `none` for a rejected request. -/
def fetchDocumentsEnd (resp : Option (List Document)) (s : AppState) :
    AppState × List Event :=
  match resp with
  | some data =>
    let s1 := { s with documents := data }
    let s2 := { s1 with error := "" }
    ({ s2 with loading := false }, [.resolved .getDocuments])
  | none =>
    let s1 := { s with error := "Failed to fetch documents" }
    ({ s1 with loading := false }, [.rejected .getDocuments])

/-- The function `fetchDocuments()`. -/
def fetchDocuments (resp : Option (List Document)) (s : AppState) :
    AppState × List Event :=
  let a := fetchDocumentsBegin s
  let b := fetchDocumentsEnd resp a.1
  (b.1, a.2 ++ b.2)

/-- The function `handleUpload(e)`; `post` is the outcome of the upload request
and `get` the outcome of the reload, should they be issued. The reload is
called without `await`: it runs up to its own `await`, the timer is registered,
and the reload finishes when its request settles. The callback registered by
`setTimeout` is `clearSuccess`; `e.preventDefault()` only stops the browser
from submitting the form and touches no state. -/
def handleUpload (post : Option Unit) (get : Option (List Document)) (s : AppState) :
    AppState × List Event :=
  match s.uploadForm.file with
  | none => ({ s with error := "Please provide both file and name" }, [])
  | some file =>
    if s.uploadForm.name = "" then
      ({ s with error := "Please provide both file and name" }, [])
    else
      let req := Request.uploadDocument file s.uploadForm.name s.uploadForm.description
      match post with
      | some _ =>
        let s1 := { s with success := "Document uploaded successfully!" }
        let s2 := { s1 with uploadForm := UploadForm.empty }
        let a := fetchDocumentsBegin s2
        let b := fetchDocumentsEnd get a.1
        (b.1, [.sent req, .resolved req] ++ a.2 ++ [.timeout 3000] ++ b.2)
      | none =>
        ({ s with error := "Failed to upload document" }, [.sent req, .rejected req])

/-- The callback `() => setSuccess('')` run by the timer. -/
def clearSuccess (s : AppState) : AppState :=
  { s with success := "" }

/-- The function `handleDownload(id, fileName)`; `resp` is the outcome of the
download request. -/
def handleDownload (id : Nat) (fileName : String) (resp : Option String) (s : AppState) :
    AppState × List Event :=
  let req := Request.downloadDocument id
  match resp with
  | some data => (s, [.sent req, .resolved req, .saved fileName data])
  | none => ({ s with error := "Failed to download document" }, [.sent req, .rejected req])

/-- The function `handleDelete(id)`; `answer` is what `window.confirm` returns,
`del` the outcome of the delete request and `get` the outcome of the reload. -/
def handleDelete (id : Nat) (answer : Bool) (del : Option Unit)
    (get : Option (List Document)) (s : AppState) : AppState × List Event :=
  if answer then
    let req := Request.deleteDocument id
    match del with
    | some _ =>
      let s1 := { s with success := "Document deleted successfully!" }
      let a := fetchDocumentsBegin s1
      let b := fetchDocumentsEnd get a.1
      (b.1, [.confirmed true, .sent req, .resolved req] ++ a.2 ++ [.timeout 3000] ++ b.2)
    | none =>
      ({ s with error := "Failed to delete document" },
        [.confirmed true, .sent req, .rejected req])
  else (s, [.confirmed false])

/-- White space and line terminators, the characters `String.prototype.trim`
removes. -/
def isJsSpace (c : Char) : Bool :=
  let n := c.toNat
  n = 0x09 || n = 0x0A || n = 0x0B || n = 0x0C || n = 0x0D || n = 0x20 || n = 0xA0
    || n = 0x1680 || (0x2000 ≤ n && n ≤ 0x200A) || n = 0x2028 || n = 0x2029
    || n = 0x202F || n = 0x205F || n = 0x3000 || n = 0xFEFF

/-- The method `s.trim()`. -/
def jsTrim (s : String) : String :=
  String.mk ((s.toList.dropWhile isJsSpace).reverse.dropWhile isJsSpace).reverse

/-- The function `handleSearch()`; `resp` is the outcome of the one request it
issues. -/
def handleSearch (resp : Option (List Document)) (s : AppState) : AppState × List Event :=
  if jsTrim s.searchQuery = "" then fetchDocuments resp s
  else
    let req := Request.searchDocuments s.searchQuery
    match resp with
    | some data => ({ s with documents := data }, [.sent req, .resolved req])
    | none => ({ s with error := "Search failed" }, [.sent req, .rejected req])

/-! ## Dashboard data (`Dashboard.js`) -/

/-- The state of the `Dashboard` component. -/
structure DashboardState where
  documents : List Document
  loading : Bool
  stats : Stats
  deriving DecidableEq, Repr

/-- Initial values of the `useState` hooks of `Dashboard`. -/
def DashboardState.initial : DashboardState :=
  { documents := [], loading := true, stats := Stats.initial }

/-- The function `fetchDashboardData()`; `now` is the clock reading taken by
`calculateStats` and `resp` the outcome of the request. -/
def fetchDashboardData (now : Int) (resp : Option (List Document)) (s : DashboardState) :
    DashboardState × List Event :=
  let s0 := { s with loading := true }
  match resp with
  | some docs =>
    let s1 := { s0 with documents := docs }
    let s2 := { s1 with stats := calculateStats now docs }
    ({ s2 with loading := false }, [.sent .getDocuments, .resolved .getDocuments])
  | none =>
    ({ s0 with loading := false },
      [.sent .getDocuments, .rejected .getDocuments,
        .consoleError "Failed to fetch dashboard data:"])

/-! ## JSON (`JSON.parse`, `JSON.stringify`) -/

/-- A JSON value as `JSON.parse` builds it. A number is kept as its literal; the
members of an object are in the order in which JavaScript enumerates them. -/
inductive Json where
  | null : Json
  | bool (b : Bool) : Json
  | num (literal : String) : Json
  | str (s : String) : Json
  | arr (items : List Json) : Json
  | obj (members : List (String × Json)) : Json
  deriving Repr

/-- Lexical tokens of a JSON text; `scalar` is a number or one of the literals
`true`, `false`, `null`. -/
inductive Token where
  | lbrace | rbrace | lbracket | rbracket | colon | comma
  | str (s : String)
  | scalar (v : Json)
  deriving Repr

/-- Value of a hexadecimal digit. -/
def hexValue (c : Char) : Option Nat :=
  if '0' ≤ c ∧ c ≤ '9' then some (c.toNat - 48)
  else if 'a' ≤ c ∧ c ≤ 'f' then some (c.toNat - 87)
  else if 'A' ≤ c ∧ c ≤ 'F' then some (c.toNat - 55)
  else none

/-- Code unit denoted by the character that follows a backslash in a string. -/
def unescape (c : Char) : Option Nat :=
  if c = '"' then some 0x22 else if c = '\\' then some 0x5C else if c = '/' then some 0x2F
  else if c = 'b' then some 0x08 else if c = 'f' then some 0x0C else if c = 'n' then some 0x0A
  else if c = 'r' then some 0x0D else if c = 't' then some 0x09 else none

/-- UTF-16 code units of a character, as JavaScript strings hold it. -/
def codeUnits (c : Char) : List Nat :=
  if c.toNat < 0x10000 then [c.toNat]
  else [0xD800 + (c.toNat - 0x10000) / 0x400, 0xDC00 + (c.toNat - 0x10000) % 0x400]

/-- Characters of a sequence of UTF-16 code units; the first argument is a high
surrogate waiting for its low surrogate. A surrogate without partner, which a
`String` cannot hold, becomes U+FFFD. -/
def decodeUnits : Option Nat → List Nat → List Char
  | none, [] => []
  | some _, [] => [Char.ofNat 0xFFFD]
  | none, u :: rest =>
    if 0xD800 ≤ u ∧ u < 0xDC00 then decodeUnits (some u) rest
    else if 0xDC00 ≤ u ∧ u < 0xE000 then Char.ofNat 0xFFFD :: decodeUnits none rest
    else Char.ofNat u :: decodeUnits none rest
  | some h, u :: rest =>
    if 0xDC00 ≤ u ∧ u < 0xE000 then
      Char.ofNat (0x10000 + (h - 0xD800) * 0x400 + (u - 0xDC00)) :: decodeUnits none rest
    else if 0xD800 ≤ u ∧ u < 0xDC00 then Char.ofNat 0xFFFD :: decodeUnits (some u) rest
    else Char.ofNat 0xFFFD :: Char.ofNat u :: decodeUnits none rest

/-- Reads a JSON string after its opening quote: returns the string and the
input that follows the closing quote. Control characters must be escaped. -/
def lexString : List Nat → List Char → Option (String × List Char)
  | _, [] => none
  | acc, c :: rest =>
    if c = '"' then some (String.mk (decodeUnits none acc.reverse), rest)
    else if c = '\\' then
      match rest with
      | [] => none
      | e :: rest1 =>
        if e = 'u' then
          match rest1 with
          | a :: b :: c :: d :: rest2 =>
            match hexValue a, hexValue b, hexValue c, hexValue d with
            | some x, some y, some z, some w =>
              lexString ((((x * 16 + y) * 16 + z) * 16 + w) :: acc) rest2
            | _, _, _, _ => none
          | _ => none
        else match unescape e with
          | some u => lexString (u :: acc) rest1
          | none => none
    else if c.toNat < 0x20 then none
    else lexString ((codeUnits c).reverse ++ acc) rest

/-- Splits off a leading minus sign. -/
def takeSign : List Char → List Char × List Char
  | '-' :: r => (['-'], r)
  | cs => ([], cs)

/-- Integer part of a number: a single `0`, or a run of digits that does not
start with `0`. -/
def takeInt : List Char → Option (List Char × List Char)
  | [] => none
  | c :: r =>
    if c = '0' then some (['0'], r)
    else if c.isDigit then
      some ((c :: r).takeWhile Char.isDigit, (c :: r).dropWhile Char.isDigit)
    else none

/-- Optional fraction of a number: a dot followed by at least one digit. -/
def takeFrac : List Char → Option (List Char × List Char)
  | '.' :: r =>
    if (r.takeWhile Char.isDigit).isEmpty then none
    else some ('.' :: r.takeWhile Char.isDigit, r.dropWhile Char.isDigit)
  | cs => some ([], cs)

/-- Optional sign of an exponent. -/
def takeExpSign : List Char → List Char × List Char
  | '+' :: r => (['+'], r)
  | '-' :: r => (['-'], r)
  | cs => ([], cs)

/-- Optional exponent of a number: `e` or `E`, an optional sign and at least one
digit. -/
def takeExp : List Char → Option (List Char × List Char)
  | [] => some ([], [])
  | e :: r =>
    if e = 'e' ∨ e = 'E' then
      if (((takeExpSign r).2).takeWhile Char.isDigit).isEmpty then none
      else some (e :: (takeExpSign r).1 ++ ((takeExpSign r).2).takeWhile Char.isDigit,
        ((takeExpSign r).2).dropWhile Char.isDigit)
    else some ([], e :: r)

/-- Reads a JSON number: an optional minus sign, an integer part without
leading zero, an optional fraction and an optional exponent. Returns the
literal and the input that follows it. -/
def lexNumber (cs : List Char) : Option (String × List Char) :=
  match takeInt (takeSign cs).2 with
  | none => none
  | some (int, cs2) =>
    match takeFrac cs2 with
    | none => none
    | some (frac, cs3) =>
      match takeExp cs3 with
      | none => none
      | some (exp, cs4) => some (String.mk ((takeSign cs).1 ++ int ++ frac ++ exp), cs4)

/-- Reads one of the literals `true`, `false`, `null`. -/
def lexLiteral : List Char → Option (Json × List Char)
  | 't' :: 'r' :: 'u' :: 'e' :: rest => some (.bool true, rest)
  | 'f' :: 'a' :: 'l' :: 's' :: 'e' :: rest => some (.bool false, rest)
  | 'n' :: 'u' :: 'l' :: 'l' :: rest => some (.null, rest)
  | _ => none

/-- Reads what starts with the character `c`, followed by `rest`: white space
(no token) or one token. Returns the token, if any, and the input after it. -/
def lexStep (c : Char) (rest : List Char) : Option (Option Token × List Char) :=
  if c = ' ' ∨ c = '\t' ∨ c = '\n' ∨ c = '\r' then some (none, rest)
  else if c = '\x7b' then some (some .lbrace, rest)
  else if c = '\x7d' then some (some .rbrace, rest)
  else if c = '[' then some (some .lbracket, rest)
  else if c = ']' then some (some .rbracket, rest)
  else if c = ':' then some (some .colon, rest)
  else if c = ',' then some (some .comma, rest)
  else if c = '"' then
    match lexString [] rest with
    | some (s, rest1) => some (some (.str s), rest1)
    | none => none
  else if c = '-' ∨ c.isDigit then
    match lexNumber (c :: rest) with
    | some (n, rest1) => some (some (.scalar (.num n)), rest1)
    | none => none
  else
    match lexLiteral (c :: rest) with
    | some (v, rest1) => some (some (.scalar v), rest1)
    | none => none

/-- Splits a JSON text into tokens. Every step is followed by a strictly
shorter input, so a fuel above the length of the input is never used up
(`lexTokens_fuel`). -/
def lexTokens : Nat → List Char → Option (List Token)
  | 0, _ => none
  | _ + 1, [] => some []
  | fuel + 1, c :: rest =>
    match lexStep c rest with
    | some (some t, rest1) => (lexTokens fuel rest1).map (t :: ·)
    | some (none, rest1) => lexTokens fuel rest1
    | none => none

/-- Adds a new member to an object: an array-index name goes among the
array-index names in ascending order, any other name at the end. -/
def insertMember (k : String) (v : Json) : List (String × Json) → List (String × Json)
  | [] => [(k, v)]
  | (k', w) :: rest =>
    if isArrayIndex k' ∧ (¬ isArrayIndex k ∨ indexValue k' < indexValue k) then
      (k', w) :: insertMember k v rest
    else if isArrayIndex k then (k, v) :: (k', w) :: rest
    else (k', w) :: insertMember k v rest

/-- Defines the property `k` of an object under construction: a repeated name
keeps its place and takes the new value. -/
def setMember (ms : List (String × Json)) (k : String) (v : Json) : List (String × Json) :=
  if ms.any (fun m => m.1 == k) then ms.map (fun m => if m.1 = k then (k, v) else m)
  else insertMember k v ms

/-- An array or object under construction, with what the parser expects next:
in `arrStart` a value or `]`, in `arrValue` a value, in `arrNext` a comma or
`]`; in `objStart` a name or the closing brace, in `objKey` a name, in
`objColon` a colon, in `objValue` a value, in `objNext` a comma or the closing
brace. -/
inductive Frame where
  | arrStart : Frame
  | arrValue (acc : List Json) : Frame
  | arrNext (acc : List Json) : Frame
  | objStart : Frame
  | objKey (acc : List (String × Json)) : Frame
  | objColon (acc : List (String × Json)) (key : String) : Frame
  | objValue (acc : List (String × Json)) (key : String) : Frame
  | objNext (acc : List (String × Json)) : Frame

/-- State of the parser: the constructs that are open, innermost first, and
the value of the text once it is complete. -/
structure ParseState where
  stack : List Frame
  result : Option Json

/-- Hands a completed value to the innermost open construct. -/
def pushValue (v : Json) (st : ParseState) : Option ParseState :=
  match st.stack with
  | [] =>
    match st.result with
    | none => some { stack := [], result := some v }
    | some _ => none
  | .arrStart :: fs => some { st with stack := .arrNext [v] :: fs }
  | .arrValue acc :: fs => some { st with stack := .arrNext (acc ++ [v]) :: fs }
  | .objValue acc k :: fs => some { st with stack := .objNext (setMember acc k v) :: fs }
  | _ => none

/-- Whether a value may start here. -/
def expectsValue (st : ParseState) : Bool :=
  match st.stack with
  | [] => st.result.isNone
  | .arrStart :: _ => true
  | .arrValue _ :: _ => true
  | .objValue _ _ :: _ => true
  | _ => false

/-- Consumes one token. -/
def parseStep (st : ParseState) (t : Token) : Option ParseState :=
  match t with
  | .scalar v => pushValue v st
  | .str s =>
    match st.stack with
    | .objStart :: fs => some { st with stack := .objColon [] s :: fs }
    | .objKey acc :: fs => some { st with stack := .objColon acc s :: fs }
    | _ => pushValue (.str s) st
  | .lbracket => if expectsValue st then some { st with stack := .arrStart :: st.stack } else none
  | .lbrace => if expectsValue st then some { st with stack := .objStart :: st.stack } else none
  | .rbracket =>
    match st.stack with
    | .arrStart :: fs => pushValue (.arr []) { st with stack := fs }
    | .arrNext acc :: fs => pushValue (.arr acc) { st with stack := fs }
    | _ => none
  | .rbrace =>
    match st.stack with
    | .objStart :: fs => pushValue (.obj []) { st with stack := fs }
    | .objNext acc :: fs => pushValue (.obj acc) { st with stack := fs }
    | _ => none
  | .comma =>
    match st.stack with
    | .arrNext acc :: fs => some { st with stack := .arrValue acc :: fs }
    | .objNext acc :: fs => some { st with stack := .objKey acc :: fs }
    | _ => none
  | .colon =>
    match st.stack with
    | .objColon acc k :: fs => some { st with stack := .objValue acc k :: fs }
    | _ => none

/-- Consumes all tokens; the text is accepted when exactly one value is
complete and nothing is left open. -/
def parseTokens : ParseState → List Token → Option Json
  | st, [] =>
    match st.stack, st.result with
    | [], some v => some v
    | _, _ => none
  | st, t :: ts =>
    match parseStep st t with
    | some st1 => parseTokens st1 ts
    | none => none

/-- The call `JSON.parse(text)`; `none` when it throws a `SyntaxError`. -/
def jsonParse (text : String) : Option Json :=
  match lexTokens (text.length + 1) text.toList with
  | some ts => parseTokens { stack := [], result := none } ts
  | none => none

/-- Lower-case hexadecimal digit. -/
def hexDigit (n : Nat) : Char :=
  if n < 10 then Char.ofNat (48 + n) else Char.ofNat (87 + n)

/-- Escaped form of a character inside a JSON string (`QuoteJSONString`). -/
def quoteChar (c : Char) : List Char :=
  if c = '"' then ['\\', '"']
  else if c = '\\' then ['\\', '\\']
  else if c.toNat = 0x08 then ['\\', 'b']
  else if c.toNat = 0x09 then ['\\', 't']
  else if c.toNat = 0x0A then ['\\', 'n']
  else if c.toNat = 0x0C then ['\\', 'f']
  else if c.toNat = 0x0D then ['\\', 'r']
  else if c.toNat < 0x20 then
    ['\\', 'u', '0', '0', hexDigit (c.toNat / 16), hexDigit (c.toNat % 16)]
  else [c]

/-- A string as a quoted JSON string. -/
def quoteJson (s : String) : String :=
  String.mk ('"' :: (s.toList.flatMap quoteChar) ++ ['"'])

mutual
/-- The call `JSON.stringify(v)`; a number is written as its literal. -/
def jsonStringify : Json → String
  | .null => "null"
  | .bool true => "true"
  | .bool false => "false"
  | .num literal => literal
  | .str s => quoteJson s
  | .arr items => "[" ++ stringifyItems items ++ "]"
  | .obj members => "\x7b" ++ stringifyMembers members ++ "\x7d"
/-- Elements of an array, separated by commas. -/
def stringifyItems : List Json → String
  | [] => ""
  | [v] => jsonStringify v
  | v :: w :: rest => jsonStringify v ++ "," ++ stringifyItems (w :: rest)
/-- Members of an object, separated by commas. -/
def stringifyMembers : List (String × Json) → String
  | [] => ""
  | [(k, v)] => quoteJson k ++ ":" ++ jsonStringify v
  | (k, v) :: m :: rest =>
    quoteJson k ++ ":" ++ jsonStringify v ++ "," ++ stringifyMembers (m :: rest)
end

/-- The object `userData` built by a successful login. -/
def userDataOf (loginTime : String) : Json :=
  .obj [("username", .str "admin"), ("email", .str "admin@documentvault.com"),
    ("loginTime", .str loginTime)]

/-- The read `v.k` of a property that no prototype provides: the member `k` of
an object that has it, `undefined` (`none`) otherwise. -/
def memberOf (v : Json) (k : String) : Option Json :=
  match v with
  | .obj members => (members.find? (fun m => m.1 == k)).map (fun m => m.2)
  | _ => none

/-! ## Local storage -/

/-- The entries of `localStorage`: names with their values. -/
abbrev Storage := List (String × String)

/-- The call `localStorage.getItem(key)`; `none` is `null`. -/
def getItem : Storage → String → Option String
  | [], _ => none
  | (k, v) :: rest, key => if k = key then some v else getItem rest key

/-- The call `localStorage.setItem(key, value)`. -/
def setItem : Storage → String → String → Storage
  | [], key, value => [(key, value)]
  | (k, v) :: rest, key, value =>
    if k = key then (k, value) :: rest else (k, v) :: setItem rest key value

/-- The call `localStorage.removeItem(key)`. -/
def removeItem (st : Storage) (key : String) : Storage :=
  st.filter (fun e => e.1 != key)

/-- The name under which the session is persisted. -/
def storageKey : String := "documentVaultUser"

/-! ## Authentication gate (`AppWithAuth.js`, `Login.js`) -/

/-- The state of the `AppWithAuth` component; `user` is `null` or whatever was
passed to `setUser`. -/
structure AuthState where
  isAuthenticated : Bool
  user : Json
  loading : Bool

/-- Initial values of the `useState` hooks of `AppWithAuth`. -/
def AuthState.initial : AuthState :=
  { isAuthenticated := false, user := .null, loading := true }

/-- Observable effects of the authentication code, in order. -/
inductive AuthEvent where
  | timeout (ms : Nat) : AuthEvent
  | onLogin (userData : Json) : AuthEvent
  | consoleError (message : String) : AuthEvent

/-- Outcome of a run of the gate: its state, the storage and the effects. -/
structure GateRun where
  gate : AuthState
  storage : Storage
  events : List AuthEvent

/-- The function `checkAuthStatus()`. The stored text is parsed only when it is
truthy, that is present and not empty; a parse error is caught, logged and
answered by removing the entry; `loading` ends in every case. -/
def checkAuthStatus (st : Storage) (g : AuthState) : GateRun :=
  match getItem st storageKey with
  | none => { gate := { g with loading := false }, storage := st, events := [] }
  | some storedUser =>
    if storedUser = "" then
      { gate := { g with loading := false }, storage := st, events := [] }
    else
      match jsonParse storedUser with
      | some userData =>
        let g1 := { g with user := userData }
        let g2 := { g1 with isAuthenticated := true }
        { gate := { g2 with loading := false }, storage := st, events := [] }
      | none =>
        { gate := { g with loading := false }
          storage := removeItem st storageKey
          events := [.consoleError "Error checking auth status:"] }

/-- What `AppWithAuth` renders: the spinner, the login form, or the application
under a header that shows `user.username` and `user.email`. -/
inductive GateView where
  | spinner : GateView
  | loginForm : GateView
  | application (username email : Option Json) : GateView

/-- The render of `AppWithAuth`; `none` when it throws: in the authenticated
branch it reads `user.username` and `user.email`, and reading a property of
`null` is a `TypeError`. -/
def renderGate (g : AuthState) : Option GateView :=
  if g.loading then some .spinner
  else if !g.isAuthenticated then some .loginForm
  else
    match g.user with
    | .null => none
    | user => some (.application (memberOf user "username") (memberOf user "email"))

/-- The function `handleLogin(userData)`. -/
def handleLogin (userData : Json) (g : AuthState) : AuthState :=
  let g1 := { g with user := userData }
  { g1 with isAuthenticated := true }

/-- The function `handleLogout()`. -/
def handleLogout (st : Storage) (g : AuthState) : AuthState × Storage :=
  let st1 := removeItem st storageKey
  let g1 := { g with user := Json.null }
  ({ g1 with isAuthenticated := false }, st1)

/-- The `formData` state of the login form. -/
structure FormData where
  username : String
  password : String
  deriving DecidableEq, Repr

/-- The state of the `Login` component. -/
structure LoginState where
  formData : FormData
  showPassword : Bool
  error : String
  loading : Bool
  deriving DecidableEq, Repr

/-- Initial values of the `useState` hooks of `Login`. -/
def LoginState.initial : LoginState :=
  { formData := { username := "", password := "" }, showPassword := false,
    error := "", loading := false }

/-- What the login code reads and writes: the form, the gate that passed it
`onLogin = handleLogin`, and the storage. -/
structure AuthWorld where
  login : LoginState
  gate : AuthState
  storage : Storage

/-- Part of `handleSubmit(e)` that runs at once: it marks the form as loading,
clears the error and arms the timer of 1000 ms. -/
def handleSubmitBegin (w : AuthWorld) : AuthWorld × List AuthEvent :=
  let l1 := { w.login with loading := true }
  ({ w with login := { l1 with error := "" } }, [.timeout 1000])

/-- The callback of the timer of `handleSubmit`; `formData` is the form data of
the render in which the form was submitted and `isoNow` the value of
`new Date().toISOString()`. -/
def handleSubmitTimeout (formData : FormData) (isoNow : String) (w : AuthWorld) :
    AuthWorld × List AuthEvent :=
  if formData.username = "admin" ∧ formData.password = "admin123" then
    let userData := userDataOf isoNow
    let storage := setItem w.storage storageKey (jsonStringify userData)
    let gate := handleLogin userData w.gate
    ({ login := { w.login with loading := false }, gate := gate, storage := storage },
      [.onLogin userData])
  else
    let l1 := { w.login with error := "Invalid username or password" }
    ({ w with login := { l1 with loading := false } }, [])

/-- The function `handleSubmit(e)` together with its timer callback. -/
def handleSubmit (isoNow : String) (w : AuthWorld) : AuthWorld × List AuthEvent :=
  let a := handleSubmitBegin w
  let b := handleSubmitTimeout w.login.formData isoNow a.1
  (b.1, a.2 ++ b.2)

/-! ## Vocabulary of the specification -/

/-- Whether a name is provided by `Object.prototype` to every plain object. -/
def inheritedName (k : String) : Bool :=
  k == "__proto__" || (objectPrototypeMethods.lookup k).isSome

/-- Number of documents of `c` that carry the type label `t`, a missing or
empty `fileType` counting as the label `Unknown`. -/
def labelCount (c : List Document) (t : String) : Nat :=
  c.countP (fun d => (match d.fileType with
    | some x => if x = "" then "Unknown" else x
    | none => "Unknown") = t)

/-- Sum of the file sizes, a missing size counting as 0. -/
def sizeSum (c : List Document) : Int :=
  (c.map (fun d => d.fileSize.getD 0)).sum

/-- Sum of `max(fileSize, 0)`, a missing size counting as 0. -/
def clampedSizeSum (c : List Document) : Int :=
  (c.map (fun d => max (d.fileSize.getD 0) 0)).sum

/-- Whether a document was uploaded strictly later than the instant `t0`. -/
def uploadedAfter (t0 : Int) (d : Document) : Bool :=
  match d.uploadDate with
  | some t => decide (t0 < t)
  | none => false

/-- A document with the given type and size, all other fields being blank. -/
def sampleDocument (type : Option String) (size : Option Int) : Document :=
  { id := 0, name := "", description := "", fileName := "",
    fileType := type, fileSize := size, uploadDate := none }

/-- The three documents of the scenario: sizes 1024, 2048 and 0, types
`application/pdf` twice and absent once. -/
def scenarioDocuments : List Document :=
  [sampleDocument (some "application/pdf") (some 1024),
   sampleDocument (some "application/pdf") (some 2048),
   sampleDocument none (some 0)]

/-- An object holds exactly the tallies `f`: a name with tally 0 is absent and
every other name is mapped to its tally. -/
def HoldsTallies (o : JsObject) (f : String → Nat) : Prop :=
  ∀ t, ownGet o t = if f t = 0 then none else some (.num (f t))

/-- What the specification requires of a failed operation: starting in `s` it
ends in `t` with the collection and the draft untouched and the error message
set to `message`. -/
def FailedWith (s t : AppState) (message : String) : Prop :=
  t.documents = s.documents ∧ t.uploadForm = s.uploadForm ∧ t.error = message

/-- Whether an event is the success response of an upload request. -/
def isUploadResolved : Event → Bool
  | .resolved (.uploadDocument _ _ _) => true
  | _ => false

/-- Whether an event is the success response of a delete request. -/
def isDeleteResolved : Event → Bool
  | .resolved (.deleteDocument _) => true
  | _ => false

/-- The event that ends a reload: its response, or its rejection. -/
def reloadEvent (get : Option (List Document)) : Event :=
  match get with
  | some _ => .resolved .getDocuments
  | none => .rejected .getDocuments

/-- A state of `App` with a typed query and a complete draft. -/
def sampleState : AppState :=
  { documents := [sampleDocument (some "text/plain") (some 7)], loading := false,
    error := "", success := "", searchQuery := "tax",
    uploadForm := { name := "report", description := "", file := some ⟨"r.pdf", "x"⟩ } }

/-- The state `sampleState` with the name of the draft erased. -/
def namelessState : AppState :=
  { sampleState with uploadForm := ⟨"", "d", some ⟨"a.txt", "abc"⟩⟩ }

/-- The state `sampleState` with a query made of a space, a tab and a no-break
space. -/
def blankQueryState : AppState :=
  { sampleState with searchQuery := " \t\u00A0" }

/-- The Session of the data model: a record of `username`, `email` and
`loginTime`. -/
def sessionRecord (username email loginTime : String) : Json :=
  .obj [("username", .str username), ("email", .str email), ("loginTime", .str loginTime)]

/-- Whether a JSON value is a string. -/
def isText : Option Json → Bool
  | some (.str _) => true
  | _ => false

/-- Whether a JSON value is a Session: an object with the texts `username`,
`email` and `loginTime`. -/
def isSession (v : Json) : Bool :=
  isText (memberOf v "username") && isText (memberOf v "email")
    && isText (memberOf v "loginTime")

/-- A clock reading in the form `toISOString` gives it. -/
def sampleIso : String := "2024-01-15T10:30:00.000Z"

/-- The login form filled with the given credentials, shown by a gate that has
finished its startup check and is not authenticated; the storage holds an
unrelated entry. -/
def loginWorld (username password : String) : AuthWorld :=
  { login := { LoginState.initial with formData := ⟨username, password⟩ }
    gate := { AuthState.initial with loading := false }
    storage := [("theme", "dark")] }

/-- A storage whose session entry holds the given text. -/
def storageWith (text : String) : Storage :=
  [("theme", "dark"), (storageKey, text)]

/-! ## Lemmas on plain objects -/

theorem ownGet_ownSet (o : JsObject) (k k' : String) (v : Prim) :
    ownGet (ownSet o k v) k' = if k = k' then some v else ownGet o k' := by
  induction o with
  | nil => simp [ownSet, ownGet]
  | cons e rest ih =>
    obtain ⟨a, w⟩ := e
    simp only [ownSet, ownGet]
    split_ifs <;> simp_all [ownGet]

theorem countSum_cons (a : String) (w : Prim) (rest : JsObject) :
    countSum ((a, w) :: rest)
      = (match w with | .num n => n | _ => 0) + countSum rest := by
  simp [countSum]

theorem countSum_ownSet_new (o : JsObject) (k : String) (h : ownGet o k = none) :
    countSum (ownSet o k (.num 1)) = countSum o + 1 := by
  induction o with
  | nil => simp [ownSet, countSum]
  | cons e rest ih =>
    obtain ⟨a, w⟩ := e
    by_cases hak : a = k
    · simp [ownGet, hak] at h
    · simp only [ownGet, hak, if_false] at h
      have := ih h
      simp only [ownSet, hak, if_false, countSum_cons]
      omega

theorem countSum_ownSet_incr (o : JsObject) (k : String) (n : Int)
    (h : ownGet o k = some (.num n)) :
    countSum (ownSet o k (.num (n + 1))) = countSum o + 1 := by
  induction o with
  | nil => simp [ownGet] at h
  | cons e rest ih =>
    obtain ⟨a, w⟩ := e
    by_cases hak : a = k
    · simp only [ownGet, hak, if_true, Option.some.injEq] at h
      subst h
      simp only [ownSet, hak, if_true, countSum_cons]
      omega
    · simp only [ownGet, hak, if_false] at h
      have := ih h
      simp only [ownSet, hak, if_false, countSum_cons]
      omega

theorem typeOrUnknown_eq (d : Document) :
    typeOrUnknown d = (match d.fileType with
      | some x => if x = "" then "Unknown" else x
      | none => "Unknown") := rfl

theorem countType_safe (acc : JsObject) (f : String → Nat) (d : Document)
    (hinv : HoldsTallies acc f) (hsafe : inheritedName (typeOrUnknown d) = false) :
    HoldsTallies (countType acc d)
        (fun t => f t + if typeOrUnknown d = t then 1 else 0)
      ∧ countSum (countType acc d) = countSum acc + 1 := by
  have hp : typeOrUnknown d ≠ "__proto__" := by
    intro h; simp [inheritedName, h] at hsafe
  have hl : objectPrototypeMethods.lookup (typeOrUnknown d) = none := by
    simp only [inheritedName, Bool.or_eq_false_iff] at hsafe
    cases hc : objectPrototypeMethods.lookup (typeOrUnknown d) with
    | none => rfl
    | some x => rw [hc] at hsafe; simp at hsafe
  have hget := hinv (typeOrUnknown d)
  by_cases h0 : f (typeOrUnknown d) = 0
  · rw [if_pos h0] at hget
    have hv : orZeroPlusOne (getProp acc (typeOrUnknown d)) = .num 1 := by
      simp [getProp, hget, hp, hl, orZeroPlusOne, truthy]
    constructor
    · intro t
      simp only [countType, setProp, hp, if_false, hv, ownGet_ownSet]
      by_cases ht : typeOrUnknown d = t
      · subst ht; simp [h0]
      · simp [ht, hinv t]
    · simp only [countType, setProp, hp, if_false, hv]
      exact countSum_ownSet_new acc _ hget
  · rw [if_neg h0] at hget
    have hv : orZeroPlusOne (getProp acc (typeOrUnknown d))
        = .num ((f (typeOrUnknown d) : Int) + 1) := by
      have : ((f (typeOrUnknown d) : Int) != 0) = true := by
        simp; exact_mod_cast h0
      simp [getProp, hget, orZeroPlusOne, truthy, this]
    constructor
    · intro t
      simp only [countType, setProp, hp, if_false, hv, ownGet_ownSet]
      by_cases ht : typeOrUnknown d = t
      · subst ht; simp
      · simp [ht, hinv t]
    · simp only [countType, setProp, hp, if_false, hv]
      exact countSum_ownSet_incr acc _ _ hget

theorem foldl_countType_safe (c : List Document) :
    ∀ (acc : JsObject) (f : String → Nat), HoldsTallies acc f →
      (∀ d ∈ c, inheritedName (typeOrUnknown d) = false) →
      HoldsTallies (c.foldl countType acc) (fun t => f t + labelCount c t)
        ∧ countSum (c.foldl countType acc) = countSum acc + c.length := by
  induction c with
  | nil =>
    intro acc f hinv _
    simpa [labelCount] using hinv
  | cons d rest ih =>
    intro acc f hinv hsafe
    have hd := countType_safe acc f d hinv (hsafe d (List.mem_cons_self _ _))
    have hr := ih (countType acc d) _ hd.1
      (fun x hx => hsafe x (List.mem_cons_of_mem _ hx))
    refine ⟨?_, ?_⟩
    · intro t
      have := hr.1 t
      beta_reduce at this
      simp only [List.foldl_cons]
      rw [this]
      have hc : labelCount (d :: rest) t
          = labelCount rest t + if typeOrUnknown d = t then 1 else 0 := by
        simp only [labelCount, List.countP_cons, typeOrUnknown_eq]
        by_cases hx : (match d.fileType with
            | some x => if x = "" then "Unknown" else x
            | none => "Unknown") = t <;> simp [hx]
      rw [hc]
      have e : f t + (if typeOrUnknown d = t then 1 else 0) + labelCount rest t
          = f t + (labelCount rest t + if typeOrUnknown d = t then 1 else 0) := by omega
      rw [e]
    · simp only [List.foldl_cons, List.length_cons]
      rw [hr.2, hd.2]
      push_cast
      omega

/-- For a collection none of whose type labels is a name inherited from
`Object.prototype`, the grouping holds exactly the label counts and they add
up to the number of documents. -/
theorem calculateStats_fileTypes_of_safe (now : Int) (c : List Document)
    (hsafe : ∀ d ∈ c, inheritedName (typeOrUnknown d) = false) :
    (∀ t, ownGet (calculateStats now c).fileTypes t
        = if labelCount c t = 0 then none else some (.num (labelCount c t)))
      ∧ countSum (calculateStats now c).fileTypes = c.length := by
  have h := foldl_countType_safe c [] (fun _ => 0) (by intro t; simp [ownGet]) hsafe
  refine ⟨?_, ?_⟩
  · intro t
    have := h.1 t
    simpa [calculateStats] using this
  · have := h.2
    simpa [calculateStats, countSum] using this

/-! ## Statistics: the claims -/

/-- The number of documents reported is the length of the collection. -/
theorem calculateStats_totalDocuments (now : Int) (c : List Document) :
    (calculateStats now c).totalDocuments = c.length := rfl

/-- C1: the counts stored in `fileTypes` should add up to the number of
documents. For the collection of one document whose `fileType` is `__proto__`
the code reports one document, stores no count at all and the counts add up
to 0: the write `acc['__proto__'] = ...` is swallowed by the inherited setter. -/
theorem calculateStats_proto_label_not_counted (now : Int) :
    (calculateStats now [sampleDocument (some "__proto__") (some 1)]).totalDocuments = 1
      ∧ (calculateStats now [sampleDocument (some "__proto__") (some 1)]).fileTypes = []
      ∧ countSum (calculateStats now [sampleDocument (some "__proto__") (some 1)]).fileTypes
          = 0 := by
  have h : ∀ c, (calculateStats now c).fileTypes = (calculateStats 0 c).fileTypes :=
    fun _ => rfl
  rw [h]
  exact ⟨rfl, by decide, by decide⟩

theorem foldl_add_sizeOrZero (c : List Document) :
    ∀ a : Int, c.foldl (fun sum doc => sum + sizeOrZero doc) a = a + sizeSum c := by
  induction c with
  | nil => intro a; simp [sizeSum]
  | cons d rest ih =>
    intro a
    have hd : sizeOrZero d = d.fileSize.getD 0 := by
      unfold sizeOrZero
      cases d.fileSize with
      | none => rfl
      | some n => by_cases h : n = 0 <;> simp [h]
    simp only [List.foldl_cons, ih, hd, sizeSum, List.map_cons, List.sum_cons]
    omega

/-- C2 (as stated, refuted): for the single document of size -5 the code gives
the total size -5, whereas the sum of `max(fileSize, 0)` is 0. -/
theorem totalSize_negative_size_counterexample :
    (calculateStats 0 [sampleDocument none (some (-5))]).totalSize = -5
      ∧ clampedSizeSum [sampleDocument none (some (-5))] = 0
      ∧ (calculateStats 0 [sampleDocument none (some (-5))]).totalSize
          ≠ clampedSizeSum [sampleDocument none (some (-5))] := by
  decide

/-- C2 (amended): `totalSize` is the sum of the file sizes, a missing size
counting as 0; when no size is negative this is the sum of `max(fileSize, 0)`. -/
theorem calculateStats_totalSize (now : Int) (c : List Document) :
    (calculateStats now c).totalSize = sizeSum c
      ∧ ((∀ d ∈ c, 0 ≤ d.fileSize.getD 0) →
          (calculateStats now c).totalSize = clampedSizeSum c) := by
  have h1 : (calculateStats now c).totalSize = sizeSum c := by
    simp [calculateStats, foldl_add_sizeOrZero]
  refine ⟨h1, fun h => ?_⟩
  rw [h1]
  unfold sizeSum clampedSizeSum
  congr 1
  apply List.map_congr_left
  intro d hd
  exact (max_eq_left (h d hd)).symm

/-- Witness of C2 on the three documents of the scenario. -/
theorem calculateStats_totalSize_witness :
    (∀ d ∈ scenarioDocuments, 0 ≤ d.fileSize.getD 0)
      ∧ (calculateStats 0 scenarioDocuments).totalSize = clampedSizeSum scenarioDocuments :=
  ⟨by decide, (calculateStats_totalSize 0 scenarioDocuments).2 (by decide)⟩

/-- C3: `fileTypes` should map every label to the number of documents that
carry it. For two documents whose `fileType` is `constructor` the label is
carried by 2 documents, yet `fileTypes` maps it to a string, the source text of
the inherited function `Object` followed by `11`, and not to the number 2. -/
theorem calculateStats_constructor_label_not_counted (now : Int) :
    labelCount [sampleDocument (some "constructor") none,
        sampleDocument (some "constructor") none] "constructor" = 2
      ∧ ownGet (calculateStats now [sampleDocument (some "constructor") none,
          sampleDocument (some "constructor") none]).fileTypes "constructor"
          = some (.str "function Object() \x7b [native code] \x7d11")
      ∧ ownGet (calculateStats now [sampleDocument (some "constructor") none,
          sampleDocument (some "constructor") none]).fileTypes "constructor"
          ≠ some (.num 2) := by
  have h : ∀ c, (calculateStats now c).fileTypes = (calculateStats 0 c).fileTypes :=
    fun _ => rfl
  rw [h]
  exact ⟨by decide, by decide, by decide⟩

/-- C4: `recentUploads` is the number of documents uploaded strictly later than
`now` minus 7 days (604800000 ms); adding a document uploaded exactly 7 days
before `now` does not change it. -/
theorem calculateStats_recentUploads (now : Int) (c : List Document) :
    (calculateStats now c).recentUploads = c.countP (uploadedAfter (now - 604800000))
      ∧ ∀ d : Document,
          (calculateStats now
            ({ d with uploadDate := some (now - 604800000) } :: c)).recentUploads
            = (calculateStats now c).recentUploads := by
  have key : ∀ l : List Document, (calculateStats now l).recentUploads
      = l.countP (uploadedAfter (now - 604800000)) := by
    intro l
    simp only [calculateStats, List.countP_eq_length_filter]
    congr 2
    funext d
    unfold dateGt uploadedAfter
    cases d.uploadDate with
    | none => rfl
    | some t => simp
  refine ⟨key c, fun d => ?_⟩
  rw [key, key, List.countP_cons]
  simp [uploadedAfter]

/-- C5 (as stated, refuted): on the scenario the aggregation has no entry under
the key `pdf`; its key is the full type `application/pdf`. -/
theorem scenario_fileTypes_has_no_pdf_key :
    ownGet (calculateStats 0 scenarioDocuments).fileTypes "pdf" = none
      ∧ ownGet (calculateStats 0 scenarioDocuments).fileTypes "pdf" ≠ some (.num 2)
      ∧ (calculateStats 0 scenarioDocuments).fileTypes
          ≠ [("pdf", .num 2), ("Unknown", .num 1)] := by
  decide

/-- C5 (amended): for three documents with sizes 1024, 2048, 0 and types
`application/pdf`, `application/pdf`, absent, the aggregation yields the total
size 3072 and the counts `application/pdf`: 2 and `Unknown`: 1, and the
distribution derived from it is `pdf`: 2 with 66.7 and `Unknown`: 1 with 33.3. -/
theorem scenario_statistics (now : Int) (d1 d2 d3 : Document) :
    (calculateStats now
        [{ d1 with fileType := some "application/pdf", fileSize := some 1024 },
         { d2 with fileType := some "application/pdf", fileSize := some 2048 },
         { d3 with fileType := none, fileSize := some 0 }]).totalSize = 3072
      ∧ (calculateStats now
        [{ d1 with fileType := some "application/pdf", fileSize := some 1024 },
         { d2 with fileType := some "application/pdf", fileSize := some 2048 },
         { d3 with fileType := none, fileSize := some 0 }]).fileTypes
          = [("application/pdf", .num 2), ("Unknown", .num 1)]
      ∧ getFileTypeDistribution (calculateStats now
        [{ d1 with fileType := some "application/pdf", fileSize := some 1024 },
         { d2 with fileType := some "application/pdf", fileSize := some 2048 },
         { d3 with fileType := none, fileSize := some 0 }])
          = [{ type := "pdf", count := .num 2, percentage := .fixed "66.7" },
             { type := "Unknown", count := .num 1, percentage := .fixed "33.3" }] := by
  refine ⟨rfl, rfl, ?_⟩
  have h : ∀ s : Stats, getFileTypeDistribution s
      = getFileTypeDistribution { s with totalSize := 0, recentUploads := 0 } :=
    fun _ => rfl
  rw [h]
  have e : ({ calculateStats now
        [{ d1 with fileType := some "application/pdf", fileSize := some 1024 },
         { d2 with fileType := some "application/pdf", fileSize := some 2048 },
         { d3 with fileType := none, fileSize := some 0 }] with
        totalSize := 0, recentUploads := 0 } : Stats)
      = { totalDocuments := 3, totalSize := 0, recentUploads := 0,
          fileTypes := [("application/pdf", .num 2), ("Unknown", .num 1)] } := rfl
  rw [e]
  decide

/-- The percentage is rounded from the double, not from the exact quotient:
23 documents of 80 are 28.75 percent, the program computes the double just
below it and shows 28.7. -/
theorem percentageOf_rounds_the_double :
    percentageOf (.num 23) 80 = .fixed "28.7" := by
  decide

/-! ## Document store: the claims -/

/-- C6: with an empty name or no file, `handleUpload` sets the validation error
and stops: it causes no event at all, hence sends no request, and leaves the
collection and the draft as they were. -/
theorem handleUpload_validation (post : Option Unit) (get : Option (List Document))
    (s : AppState) (h : s.uploadForm.name = "" ∨ s.uploadForm.file = none) :
    (handleUpload post get s).1.error = "Please provide both file and name"
      ∧ (handleUpload post get s).2 = []
      ∧ (∀ r, Event.sent r ∉ (handleUpload post get s).2)
      ∧ (handleUpload post get s).1.documents = s.documents
      ∧ (handleUpload post get s).1.uploadForm = s.uploadForm := by
  have key : handleUpload post get s
      = ({ s with error := "Please provide both file and name" }, []) := by
    unfold handleUpload
    cases hf : s.uploadForm.file with
    | none => rfl
    | some file =>
      rcases h with h | h
      · simp [h]
      · rw [hf] at h; cases h
  rw [key]
  simp

/-- Witness of C6: a draft with a file but an empty name, for a request that
would have succeeded. -/
theorem handleUpload_validation_witness :
    (namelessState.uploadForm.name = "" ∨ namelessState.uploadForm.file = none)
      ∧ (handleUpload (some ()) (some []) namelessState).1.error
          = "Please provide both file and name"
      ∧ (handleUpload (some ()) (some []) namelessState).2 = [] :=
  ⟨Or.inl rfl,
    (handleUpload_validation (some ()) (some []) namelessState (Or.inl rfl)).1,
    (handleUpload_validation (some ()) (some []) namelessState (Or.inl rfl)).2.1⟩

/-- C7 (as stated, refuted): after a failed request the dashboard is in the very
state a successful load of an empty collection leaves it in, so nothing the
view renders tells the failure; the failure only reaches the console. -/
theorem fetchDashboardData_failure_not_shown :
    (fetchDashboardData 0 none DashboardState.initial).1
        = (fetchDashboardData 0 (some []) DashboardState.initial).1
      ∧ (fetchDashboardData 0 none DashboardState.initial).2
        = [.sent .getDocuments, .rejected .getDocuments,
            .consoleError "Failed to fetch dashboard data:"] := by
  decide

/-- C7 (amended): a successful load replaces the collection by the response, in
`App` and in `Dashboard` (which also recomputes the statistics from it). A
failed load leaves the collection unchanged; `App` sets the error message
`Failed to fetch documents`, `Dashboard` changes nothing but `loading` and
writes to the console. -/
theorem loadAll_outcomes (s : AppState) (ds : DashboardState) (now : Int)
    (data : List Document) :
    (fetchDocuments (some data) s).1.documents = data
      ∧ (fetchDocuments none s).1.documents = s.documents
      ∧ (fetchDocuments none s).1.error = "Failed to fetch documents"
      ∧ (fetchDashboardData now (some data) ds).1.documents = data
      ∧ (fetchDashboardData now (some data) ds).1.stats = calculateStats now data
      ∧ (fetchDashboardData now none ds).1 = { ds with loading := false }
      ∧ (fetchDashboardData now none ds).2
          = [.sent .getDocuments, .rejected .getDocuments,
              .consoleError "Failed to fetch dashboard data:"] :=
  ⟨rfl, rfl, rfl, rfl, rfl, rfl, rfl⟩

/-- C8 (as stated, refuted): with an empty query a failed search ends with the
message `Failed to fetch documents`, not with `Search failed`. -/
theorem handleSearch_blank_failure_message :
    (handleSearch none AppState.initial).1.error = "Failed to fetch documents"
      ∧ (handleSearch none AppState.initial).1.error ≠ "Search failed" := by
  decide

/-- C8 (amended): when the request of a search with a non-blank query, of an
upload, of a confirmed delete or of a download fails, the collection and the
draft are what they were and the error message is the one of that operation; a
search with a blank query is a reload and fails with the message of the
reload, the collection and the draft being untouched as well. -/
theorem request_failure_keeps_state (s : AppState) :
    (jsTrim s.searchQuery ≠ "" → FailedWith s (handleSearch none s).1 "Search failed")
      ∧ (jsTrim s.searchQuery = "" →
          FailedWith s (handleSearch none s).1 "Failed to fetch documents")
      ∧ (∀ get, s.uploadForm.file ≠ none → s.uploadForm.name ≠ "" →
          FailedWith s (handleUpload none get s).1 "Failed to upload document")
      ∧ (∀ id get, FailedWith s (handleDelete id true none get s).1
          "Failed to delete document")
      ∧ (∀ id fileName, FailedWith s (handleDownload id fileName none s).1
          "Failed to download document") := by
  refine ⟨?_, ?_, ?_, ?_, ?_⟩
  · intro h
    simp [handleSearch, h, FailedWith]
  · intro h
    simp [handleSearch, h, FailedWith, fetchDocuments, fetchDocumentsBegin,
      fetchDocumentsEnd]
  · intro get hf hn
    unfold handleUpload
    cases hfile : s.uploadForm.file with
    | none => exact absurd hfile hf
    | some file => simp [hn, FailedWith]
  · intro id get
    simp [handleDelete, FailedWith]
  · intro id fileName
    simp [handleDownload, FailedWith]

/-- Witness of C8: a state with the query `tax` and a complete draft. -/
theorem request_failure_keeps_state_witness :
    jsTrim sampleState.searchQuery ≠ ""
      ∧ sampleState.uploadForm.file ≠ none ∧ sampleState.uploadForm.name ≠ ""
      ∧ FailedWith sampleState (handleSearch none sampleState).1 "Search failed"
      ∧ FailedWith sampleState (handleUpload none (some []) sampleState).1
          "Failed to upload document" :=
  ⟨by decide, by decide, by decide,
    (request_failure_keeps_state sampleState).1 (by decide),
    (request_failure_keeps_state sampleState).2.2.1 (some []) (by decide) (by decide)⟩

theorem jsTrim_of_all_space (q : String) (h : ∀ c ∈ q.toList, isJsSpace c = true) :
    jsTrim q = "" := by
  have h1 : q.toList.dropWhile isJsSpace = [] := by
    rw [List.dropWhile_eq_nil_iff]
    exact h
  unfold jsTrim
  rw [h1]
  rfl

/-- C9: for a query that is empty or made of white space only, `handleSearch`
is `fetchDocuments`: same events (the request `GET /documents`) and same
resulting state whatever the server answers; a reload that follows it ends in
the state a reload alone ends in when the server answers both alike, and in
any case when that reload succeeds. -/
theorem handleSearch_blank_is_fetchDocuments (resp : Option (List Document))
    (s : AppState) (h : ∀ c ∈ s.searchQuery.toList, isJsSpace c = true) :
    handleSearch resp s = fetchDocuments resp s
      ∧ (fetchDocuments resp (handleSearch resp s).1).1 = (fetchDocuments resp s).1
      ∧ (fetchDocuments resp (handleSearch resp s).1).1.documents
          = (fetchDocuments resp s).1.documents
      ∧ ∀ data, (fetchDocuments (some data) (handleSearch resp s).1).1
          = (fetchDocuments (some data) s).1 := by
  have key : handleSearch resp s = fetchDocuments resp s := by
    simp [handleSearch, jsTrim_of_all_space s.searchQuery h]
  rw [key]
  refine ⟨rfl, ?_, ?_, ?_⟩
  · cases resp <;> rfl
  · cases resp <;> rfl
  · intro data
    cases resp <;> rfl

/-- Witness of C9: the query made of a space, a tab and a no-break space. -/
theorem handleSearch_blank_is_fetchDocuments_witness :
    (∀ c ∈ blankQueryState.searchQuery.toList, isJsSpace c = true)
      ∧ handleSearch (some []) blankQueryState = fetchDocuments (some []) blankQueryState :=
  ⟨by decide, (handleSearch_blank_is_fetchDocuments (some []) blankQueryState
    (by decide)).1⟩

theorem front_subset_of_split (e : Event) (front : List Event) :
    ∀ (rest pre suf : List Event), e ∉ front →
      front ++ e :: rest = pre ++ e :: suf → ∀ x ∈ front, x ∈ pre := by
  induction front with
  | nil => intro _ _ _ _ _ x hx; cases hx
  | cons f fs ih =>
    intro rest pre suf hne h x hx
    cases pre with
    | nil =>
      simp only [List.nil_append, List.cons_append, List.cons.injEq] at h
      exact absurd h.1.symm (fun hh => hne (hh ▸ List.mem_cons_self _ _))
    | cons p ps =>
      simp only [List.cons_append, List.cons.injEq] at h
      rcases List.mem_cons.mp hx with hx | hx
      · rw [hx, h.1]; exact List.mem_cons_self _ _
      · exact List.mem_cons_of_mem _
          (ih rest ps suf (fun hh => hne (List.mem_cons_of_mem _ hh)) h.2 x hx)

theorem handleUpload_cases (post : Option Unit) (get : Option (List Document))
    (s : AppState) :
    (Event.sent .getDocuments ∉ (handleUpload post get s).2
        ∧ (∀ e ∈ (handleUpload post get s).2, isUploadResolved e = false)
        ∧ (handleUpload post get s).1.documents = s.documents)
      ∨ (∃ req tail, isUploadResolved (.resolved req) = true
        ∧ (handleUpload post get s).2
            = [.sent req, .resolved req] ++ .sent .getDocuments :: tail
        ∧ Event.sent .getDocuments ≠ .sent req
        ∧ (handleUpload post get s).1.documents = (fetchDocuments get s).1.documents) := by
  unfold handleUpload
  cases hf : s.uploadForm.file with
  | none => left; simp
  | some file =>
    by_cases hn : s.uploadForm.name = ""
    · left; simp [hn]
    · cases post with
      | none => left; simp [hn, isUploadResolved]
      | some u =>
        right
        refine ⟨.uploadDocument file s.uploadForm.name s.uploadForm.description,
          [.timeout 3000] ++ (fetchDocumentsEnd get
            (fetchDocumentsBegin
              { s with
                success := "Document uploaded successfully!"
                uploadForm := UploadForm.empty }).1).2, rfl, ?_, by simp, ?_⟩
        · simp [hn, fetchDocumentsBegin]
        · cases get <;> simp [hn, fetchDocuments, fetchDocumentsBegin, fetchDocumentsEnd]

theorem handleDelete_cases (id : Nat) (answer : Bool) (del : Option Unit)
    (get : Option (List Document)) (s : AppState) :
    (Event.sent .getDocuments ∉ (handleDelete id answer del get s).2
        ∧ (∀ e ∈ (handleDelete id answer del get s).2, isDeleteResolved e = false)
        ∧ (handleDelete id answer del get s).1.documents = s.documents)
      ∨ (∃ tail, (handleDelete id answer del get s).2
            = [.confirmed true, .sent (.deleteDocument id), .resolved (.deleteDocument id)]
                ++ .sent .getDocuments :: tail
        ∧ (handleDelete id answer del get s).1.documents
            = (fetchDocuments get s).1.documents) := by
  unfold handleDelete
  cases answer with
  | false => left; simp [isDeleteResolved]
  | true =>
    cases del with
    | none => left; simp [isDeleteResolved]
    | some u =>
      right
      refine ⟨[.timeout 3000] ++ (fetchDocumentsEnd get
          (fetchDocumentsBegin { s with success := "Document deleted successfully!" }).1).2,
        ?_, ?_⟩
      · simp [fetchDocumentsBegin]
      · cases get <;> simp [fetchDocuments, fetchDocumentsBegin, fetchDocumentsEnd]

/-- In the order of events of `handleUpload` and `handleDelete` the reload is
sent exactly when a success response of the upload, respectively delete,
request occurs, and after it; the collection changes through the reload only. -/
theorem reload_follows_response (s : AppState) (post del : Option Unit)
    (get : Option (List Document)) (id : Nat) (answer : Bool) :
    ((Event.sent .getDocuments ∈ (handleUpload post get s).2
          ↔ ∃ e ∈ (handleUpload post get s).2, isUploadResolved e = true)
        ∧ (∀ pre suf, (handleUpload post get s).2 = pre ++ Event.sent .getDocuments :: suf →
            ∃ e ∈ pre, isUploadResolved e = true)
        ∧ (Event.sent .getDocuments ∉ (handleUpload post get s).2 →
            (handleUpload post get s).1.documents = s.documents)
        ∧ (Event.sent .getDocuments ∈ (handleUpload post get s).2 →
            (handleUpload post get s).1.documents = (fetchDocuments get s).1.documents))
      ∧ ((Event.sent .getDocuments ∈ (handleDelete id answer del get s).2
          ↔ ∃ e ∈ (handleDelete id answer del get s).2, isDeleteResolved e = true)
        ∧ (∀ pre suf,
            (handleDelete id answer del get s).2 = pre ++ Event.sent .getDocuments :: suf →
            ∃ e ∈ pre, isDeleteResolved e = true)
        ∧ (Event.sent .getDocuments ∉ (handleDelete id answer del get s).2 →
            (handleDelete id answer del get s).1.documents = s.documents)
        ∧ (Event.sent .getDocuments ∈ (handleDelete id answer del get s).2 →
            (handleDelete id answer del get s).1.documents
              = (fetchDocuments get s).1.documents)) := by
  constructor
  · rcases handleUpload_cases post get s with ⟨hno, hres, hdoc⟩ | ⟨req, tail, hreq, htr, hne, hdoc⟩
    · refine ⟨⟨fun h => absurd h hno, ?_⟩, ?_, fun _ => hdoc, fun h => absurd h hno⟩
      · rintro ⟨e, he, hr⟩
        rw [hres e he] at hr
        cases hr
      · intro pre suf h
        exact absurd (h ▸ List.mem_append_right _ (List.mem_cons_self _ _)) hno
    · have hin : Event.sent .getDocuments ∈ (handleUpload post get s).2 := by
        rw [htr]; simp
      refine ⟨⟨fun _ => ⟨.resolved req, by rw [htr]; simp, hreq⟩, fun _ => hin⟩, ?_,
        fun h => absurd hin h, fun _ => hdoc⟩
      intro pre suf h
      rw [htr] at h
      refine ⟨.resolved req, ?_, hreq⟩
      refine front_subset_of_split _ _ tail pre suf ?_ h _ (by simp)
      simp only [List.mem_cons, List.mem_singleton, not_or, List.not_mem_nil, or_false]
      exact ⟨hne, by simp⟩
  · rcases handleDelete_cases id answer del get s with ⟨hno, hres, hdoc⟩ | ⟨tail, htr, hdoc⟩
    · refine ⟨⟨fun h => absurd h hno, ?_⟩, ?_, fun _ => hdoc, fun h => absurd h hno⟩
      · rintro ⟨e, he, hr⟩
        rw [hres e he] at hr
        cases hr
      · intro pre suf h
        exact absurd (h ▸ List.mem_append_right _ (List.mem_cons_self _ _)) hno
    · have hin : Event.sent .getDocuments ∈ (handleDelete id answer del get s).2 := by
        rw [htr]; simp
      refine ⟨⟨fun _ => ⟨.resolved (.deleteDocument id), by rw [htr]; simp, rfl⟩,
        fun _ => hin⟩, ?_, fun h => absurd hin h, fun _ => hdoc⟩
      intro pre suf h
      rw [htr] at h
      refine ⟨.resolved (.deleteDocument id), ?_, rfl⟩
      refine front_subset_of_split _ _ tail pre suf ?_ h _ (by simp)
      simp

theorem handleUpload_trace (post : Option Unit) (get : Option (List Document))
    (s : AppState) (file : File) (hf : s.uploadForm.file = some file)
    (hn : s.uploadForm.name ≠ "") :
    (post.isSome = true → (handleUpload post get s).2
        = [.sent (.uploadDocument file s.uploadForm.name s.uploadForm.description),
           .resolved (.uploadDocument file s.uploadForm.name s.uploadForm.description),
           .sent .getDocuments, .timeout 3000, reloadEvent get])
      ∧ (post = none → (handleUpload post get s).2
        = [.sent (.uploadDocument file s.uploadForm.name s.uploadForm.description),
           .rejected (.uploadDocument file s.uploadForm.name s.uploadForm.description)]) := by
  unfold handleUpload
  rw [hf]
  cases post with
  | none => simp [hn]
  | some u => cases get <;> simp [hn, fetchDocumentsBegin, fetchDocumentsEnd, reloadEvent]

theorem handleDelete_trace (id : Nat) (del : Option Unit) (get : Option (List Document))
    (s : AppState) :
    (del.isSome = true → (handleDelete id true del get s).2
        = [.confirmed true, .sent (.deleteDocument id), .resolved (.deleteDocument id),
           .sent .getDocuments, .timeout 3000, reloadEvent get])
      ∧ (del = none → (handleDelete id true del get s).2
        = [.confirmed true, .sent (.deleteDocument id), .rejected (.deleteDocument id)]) := by
  unfold handleDelete
  cases del with
  | none => simp
  | some u => cases get <;> simp [fetchDocumentsBegin, fetchDocumentsEnd, reloadEvent]

/-- C10: in `handleUpload` and in `handleDelete` the reload `GET /documents` is
sent exactly when the upload, respectively delete, request has succeeded, and
every sending of it comes after that success response in the order of events;
the collection after the handler is the one the reload leaves (the response, or
the old collection when the reload fails) and is the old collection when no
reload is sent. In terms of the outcomes: the reload is sent if and only if the
draft is complete and the upload request succeeds, respectively the user
confirms and the delete request succeeds; the events are then the request, its
success response, the reload request, the timer and the end of the reload, in
this order, and when the request fails they are the request and its rejection
only. -/
theorem reload_only_after_success (s : AppState) (post del : Option Unit)
    (get : Option (List Document)) (id : Nat) (answer : Bool) :
    (((Event.sent .getDocuments ∈ (handleUpload post get s).2
          ↔ ∃ e ∈ (handleUpload post get s).2, isUploadResolved e = true)
        ∧ (∀ pre suf, (handleUpload post get s).2 = pre ++ Event.sent .getDocuments :: suf →
            ∃ e ∈ pre, isUploadResolved e = true)
        ∧ (Event.sent .getDocuments ∉ (handleUpload post get s).2 →
            (handleUpload post get s).1.documents = s.documents)
        ∧ (Event.sent .getDocuments ∈ (handleUpload post get s).2 →
            (handleUpload post get s).1.documents = (fetchDocuments get s).1.documents))
      ∧ ((Event.sent .getDocuments ∈ (handleDelete id answer del get s).2
          ↔ ∃ e ∈ (handleDelete id answer del get s).2, isDeleteResolved e = true)
        ∧ (∀ pre suf,
            (handleDelete id answer del get s).2 = pre ++ Event.sent .getDocuments :: suf →
            ∃ e ∈ pre, isDeleteResolved e = true)
        ∧ (Event.sent .getDocuments ∉ (handleDelete id answer del get s).2 →
            (handleDelete id answer del get s).1.documents = s.documents)
        ∧ (Event.sent .getDocuments ∈ (handleDelete id answer del get s).2 →
            (handleDelete id answer del get s).1.documents
              = (fetchDocuments get s).1.documents)))
      ∧ ((Event.sent .getDocuments ∈ (handleUpload post get s).2
          ↔ (s.uploadForm.file ≠ none ∧ s.uploadForm.name ≠ "" ∧ post.isSome = true))
        ∧ (∀ file, s.uploadForm.file = some file → s.uploadForm.name ≠ "" →
            (post.isSome = true → (handleUpload post get s).2
                = [.sent (.uploadDocument file s.uploadForm.name s.uploadForm.description),
                   .resolved
                     (.uploadDocument file s.uploadForm.name s.uploadForm.description),
                   .sent .getDocuments, .timeout 3000, reloadEvent get])
              ∧ (post = none → (handleUpload post get s).2
                = [.sent (.uploadDocument file s.uploadForm.name s.uploadForm.description),
                   .rejected
                     (.uploadDocument file s.uploadForm.name s.uploadForm.description)])))
      ∧ ((Event.sent .getDocuments ∈ (handleDelete id answer del get s).2
          ↔ (answer = true ∧ del.isSome = true))
        ∧ (answer = true →
            (del.isSome = true → (handleDelete id answer del get s).2
                = [.confirmed true, .sent (.deleteDocument id),
                   .resolved (.deleteDocument id), .sent .getDocuments, .timeout 3000,
                   reloadEvent get])
              ∧ (del = none → (handleDelete id answer del get s).2
                = [.confirmed true, .sent (.deleteDocument id),
                   .rejected (.deleteDocument id)]))) := by
  refine ⟨reload_follows_response s post del get id answer, ⟨?_, ?_⟩, ⟨?_, ?_⟩⟩
  · cases hf : s.uploadForm.file with
    | none => simp [handleUpload, hf]
    | some file =>
      by_cases hn : s.uploadForm.name = ""
      · simp [handleUpload, hf, hn]
      · have ht := handleUpload_trace post get s file hf hn
        cases post with
        | none => rw [ht.2 rfl]; simp [hn]
        | some u => rw [ht.1 rfl]; simp [hn]
  · intro file hf hn
    exact handleUpload_trace post get s file hf hn
  · cases answer with
    | false => simp [handleDelete]
    | true =>
      have ht := handleDelete_trace id del get s
      cases del with
      | none => rw [ht.2 rfl]; simp
      | some u => rw [ht.1 rfl]; simp
  · intro ha
    subst ha
    exact handleDelete_trace id del get s

/-- Witness of C10: an upload from `sampleState` that succeeds and a confirmed
delete of document 3 that succeeds, each followed by a reload that returns the
empty collection. -/
theorem reload_only_after_success_witness :
    Event.sent .getDocuments ∈ (handleUpload (some ()) (some []) sampleState).2
      ∧ (handleUpload (some ()) (some []) sampleState).1.documents
          = (fetchDocuments (some []) sampleState).1.documents
      ∧ (∃ e ∈ (handleUpload (some ()) (some []) sampleState).2, isUploadResolved e = true)
      ∧ Event.sent .getDocuments ∈ (handleDelete 3 true (some ()) (some []) sampleState).2
      ∧ (handleDelete 3 true (some ()) (some []) sampleState).2
          = [.confirmed true, .sent (.deleteDocument 3), .resolved (.deleteDocument 3),
             .sent .getDocuments, .timeout 3000, .resolved .getDocuments] :=
  ⟨by decide,
    (reload_only_after_success sampleState (some ()) none (some []) 0 true).1.1.2.2.2
      (by decide),
    (reload_only_after_success sampleState (some ()) none (some []) 0 true).1.1.1.mp
      (by decide),
    (reload_only_after_success sampleState none (some ()) (some []) 3 true).2.2.1.mpr
      ⟨rfl, rfl⟩,
    ((reload_only_after_success sampleState none (some ()) (some []) 3 true).2.2.2 rfl).1
      rfl⟩

/-! ## Lemmas on the JSON lexer -/

theorem length_dropWhile_le (p : Char → Bool) (l : List Char) :
    (l.dropWhile p).length ≤ l.length :=
  (List.dropWhile_sublist p).length_le

theorem lexString_length : ∀ (n : Nat) (cs : List Char) (acc : List Nat) (s : String)
    (r : List Char), cs.length ≤ n → lexString acc cs = some (s, r) → r.length < cs.length := by
  intro n
  induction n with
  | zero =>
    intro cs acc s r hn h
    have : cs = [] := List.length_eq_zero.mp (Nat.le_zero.mp hn)
    subst this
    simp [lexString] at h
  | succ k ih =>
    intro cs acc s r hn h
    unfold lexString at h
    split at h
    · cases h
    · rename_i acc c rest
      simp only [List.length_cons] at hn ⊢
      split_ifs at h with h1 h2 h3
      · simp only [Option.some.injEq, Prod.mk.injEq] at h
        rw [← h.2]; omega
      · split at h
        · cases h
        · rename_i e rest1
          simp only [List.length_cons] at hn ⊢
          split_ifs at h with h4
          · split at h
            · rename_i a b c d rest2
              simp only [List.length_cons] at hn ⊢
              split at h
              · have := ih rest2 _ s r (by omega) h
                omega
              · cases h
            · cases h
          · split at h
            · have := ih rest1 _ s r (by omega) h
              omega
            · cases h
      · have := ih rest _ s r (by omega) h
        omega

theorem takeInt_length (cs int r : List Char) (h : takeInt cs = some (int, r)) :
    r.length < cs.length := by
  unfold takeInt at h
  split at h
  · cases h
  · rename_i c rest
    split_ifs at h with h1 h2
    · simp only [Option.some.injEq, Prod.mk.injEq] at h
      rw [← h.2]; simp
    · simp only [Option.some.injEq, Prod.mk.injEq] at h
      rw [← h.2, List.dropWhile_cons_of_pos h2]
      have := length_dropWhile_le Char.isDigit rest
      simp only [List.length_cons]
      omega

theorem takeFrac_length (cs frac r : List Char) (h : takeFrac cs = some (frac, r)) :
    r.length ≤ cs.length := by
  unfold takeFrac at h
  split at h
  · rename_i rest
    split_ifs at h
    simp only [Option.some.injEq, Prod.mk.injEq] at h
    rw [← h.2]
    have := length_dropWhile_le Char.isDigit rest
    simp only [List.length_cons]
    omega
  · simp only [Option.some.injEq, Prod.mk.injEq] at h
    rw [← h.2]

theorem takeExpSign_length (cs : List Char) : (takeExpSign cs).2.length ≤ cs.length := by
  unfold takeExpSign
  split <;> simp

theorem takeExp_length (cs exp r : List Char) (h : takeExp cs = some (exp, r)) :
    r.length ≤ cs.length := by
  unfold takeExp at h
  split at h
  · simp only [Option.some.injEq, Prod.mk.injEq] at h
    rw [← h.2]
  · rename_i e rest
    split_ifs at h
    · simp only [Option.some.injEq, Prod.mk.injEq] at h
      rw [← h.2]
      have h1 := length_dropWhile_le Char.isDigit (takeExpSign rest).2
      have h2 := takeExpSign_length rest
      simp only [List.length_cons]
      omega
    · simp only [Option.some.injEq, Prod.mk.injEq] at h
      rw [← h.2]

theorem takeSign_length (cs : List Char) : (takeSign cs).2.length ≤ cs.length := by
  unfold takeSign
  split <;> simp

theorem lexNumber_length (cs : List Char) (n : String) (r : List Char)
    (h : lexNumber cs = some (n, r)) : r.length < cs.length := by
  unfold lexNumber at h
  split at h
  · cases h
  · rename_i int cs2 hint
    split at h
    · cases h
    · rename_i frac cs3 hfrac
      split at h
      · cases h
      · rename_i exp cs4 hexp
        simp only [Option.some.injEq, Prod.mk.injEq] at h
        rw [← h.2]
        have h1 := takeInt_length _ _ _ hint
        have h2 := takeFrac_length _ _ _ hfrac
        have h3 := takeExp_length _ _ _ hexp
        have h4 := takeSign_length cs
        omega

theorem lexLiteral_length (cs : List Char) (v : Json) (r : List Char)
    (h : lexLiteral cs = some (v, r)) : r.length < cs.length := by
  unfold lexLiteral at h
  split at h <;> cases h <;> simp only [List.length_cons] <;> omega

theorem lexStep_length (c : Char) (rest : List Char) (t : Option Token) (r : List Char)
    (h : lexStep c rest = some (t, r)) : r.length ≤ rest.length := by
  unfold lexStep at h
  split_ifs at h
  any_goals
    simp only [Option.some.injEq, Prod.mk.injEq] at h
    rw [← h.2]
  · split at h
    · rename_i s rest1 hs
      simp only [Option.some.injEq, Prod.mk.injEq] at h
      rw [← h.2]
      have := lexString_length rest.length rest [] s rest1 (le_refl _) hs
      omega
    · cases h
  · split at h
    · rename_i n rest1 hs
      simp only [Option.some.injEq, Prod.mk.injEq] at h
      rw [← h.2]
      have := lexNumber_length _ _ _ hs
      simp only [List.length_cons] at this
      omega
    · cases h
  · split at h
    · rename_i v rest1 hs
      simp only [Option.some.injEq, Prod.mk.injEq] at h
      rw [← h.2]
      have := lexLiteral_length _ _ _ hs
      simp only [List.length_cons] at this
      omega
    · cases h

/-- More fuel than the length of the input changes nothing. -/
theorem lexTokens_fuel : ∀ (n : Nat) (cs : List Char) (m : Nat),
    cs.length < n → cs.length < m → lexTokens n cs = lexTokens m cs := by
  intro n
  induction n with
  | zero => intro cs m h; omega
  | succ k ih =>
    intro cs m h1 h2
    cases m with
    | zero => omega
    | succ j =>
      cases cs with
      | nil => simp [lexTokens]
      | cons c rest =>
        simp only [List.length_cons] at h1 h2
        simp only [lexTokens]
        cases hs : lexStep c rest with
        | none => rfl
        | some p =>
          obtain ⟨t, r⟩ := p
          have hr := lexStep_length c rest t r hs
          have := ih r j (by omega) (by omega)
          cases t with
          | none => simpa using this
          | some t => simp [this]

/-- The fuel `jsonParse` gives the lexer is enough: any larger fuel yields the
same tokens. -/
theorem jsonParse_fuel (text : String) (n : Nat) (h : text.length < n) :
    lexTokens n text.toList = lexTokens (text.length + 1) text.toList :=
  lexTokens_fuel n text.toList (text.length + 1) h (Nat.lt_succ_self _)

/-! ## Parsing what `JSON.stringify` wrote -/

theorem hexValue_hexDigit (k : Nat) (h : k < 16) : hexValue (hexDigit k) = some k := by
  interval_cases k <;> rfl

theorem char_eq_of_toNat (c : Char) (n : Nat) (h : c.toNat = n) : c = Char.ofNat n := by
  rw [← h, Char.ofNat_toNat]

theorem codeUnits_small (c : Char) (h : c.toNat < 0x10000) : codeUnits c = [c.toNat] := by
  simp [codeUnits, h]

theorem lexString_quoteChar (c : Char) (acc : List Nat) (rest : List Char) :
    lexString acc (quoteChar c ++ rest) = lexString ((codeUnits c).reverse ++ acc) rest := by
  unfold quoteChar
  split_ifs with h1 h2 h3 h4 h5 h6 h7 h8
  · subst h1
    simp only [List.cons_append, List.nil_append, codeUnits]
    rw [lexString.eq_def]
    simp [unescape]
  · subst h2
    simp only [List.cons_append, List.nil_append, codeUnits]
    rw [lexString.eq_def]
    simp [unescape]
  · have := char_eq_of_toNat c _ h3; subst this
    simp only [List.cons_append, List.nil_append, codeUnits]
    rw [lexString.eq_def]
    simp [unescape]
  · have := char_eq_of_toNat c _ h4; subst this
    simp only [List.cons_append, List.nil_append, codeUnits]
    rw [lexString.eq_def]
    simp [unescape]
  · have := char_eq_of_toNat c _ h5; subst this
    simp only [List.cons_append, List.nil_append, codeUnits]
    rw [lexString.eq_def]
    simp [unescape]
  · have := char_eq_of_toNat c _ h6; subst this
    simp only [List.cons_append, List.nil_append, codeUnits]
    rw [lexString.eq_def]
    simp [unescape]
  · have := char_eq_of_toNat c _ h7; subst this
    simp only [List.cons_append, List.nil_append, codeUnits]
    rw [lexString.eq_def]
    simp [unescape]
  · have ha : hexValue (hexDigit (c.toNat / 16)) = some (c.toNat / 16) :=
      hexValue_hexDigit _ (by omega)
    have hb : hexValue (hexDigit (c.toNat % 16)) = some (c.toNat % 16) :=
      hexValue_hexDigit _ (by omega)
    have h0 : hexValue '0' = some 0 := rfl
    have hcu : codeUnits c = [c.toNat] := codeUnits_small c (by omega)
    simp only [List.cons_append, List.nil_append]
    rw [lexString.eq_def]
    simp [ha, hb, h0, hcu]
    congr 2
    omega
  · simp only [List.cons_append, List.nil_append]
    rw [lexString.eq_def]
    simp [h1, h2, h8]

theorem decodeUnits_codeUnits (s : List Char) (tail : List Nat) :
    decodeUnits none (s.flatMap codeUnits ++ tail) = s ++ decodeUnits none tail := by
  induction s with
  | nil => simp
  | cons c rest ih =>
    have hv := c.valid
    have hn : c.toNat = c.val.toNat := rfl
    simp only [List.flatMap_cons, List.append_assoc, List.cons_append]
    by_cases hs : c.toNat < 0x10000
    · have hcu : codeUnits c = [c.toNat] := codeUnits_small c hs
      have hnot : ¬ (0xD800 ≤ c.toNat ∧ c.toNat < 0xDC00) ∧ ¬ (0xDC00 ≤ c.toNat ∧ c.toNat < 0xE000) := by
        rcases hv with h | h
        · have : c.toNat < 0xD800 := h
          omega
        · have : 0xDFFF < c.toNat := h.1
          omega
      rw [hcu]
      simp only [List.cons_append, List.nil_append]
      rw [decodeUnits]
      simp only [hnot.1, hnot.2, if_false, Char.ofNat_toNat, ih]
    · have hlt : c.toNat < 0x110000 := by
        rcases hv with h | h
        · have : c.toNat < 0xD800 := h
          omega
        · exact h.2
      have hcu : codeUnits c = [0xD800 + (c.toNat - 0x10000) / 0x400,
          0xDC00 + (c.toNat - 0x10000) % 0x400] := by
        simp [codeUnits, hs]
      rw [hcu]
      simp only [List.cons_append, List.nil_append]
      rw [decodeUnits]
      have h1 : 0xD800 ≤ 0xD800 + (c.toNat - 0x10000) / 0x400
          ∧ 0xD800 + (c.toNat - 0x10000) / 0x400 < 0xDC00 := by omega
      simp only [h1, and_self, if_true]
      rw [decodeUnits]
      have h2 : 0xDC00 ≤ 0xDC00 + (c.toNat - 0x10000) % 0x400
          ∧ 0xDC00 + (c.toNat - 0x10000) % 0x400 < 0xE000 := by omega
      simp only [h2, and_self, if_true]
      have h3 : 0x10000 + (0xD800 + (c.toNat - 0x10000) / 0x400 - 0xD800) * 0x400
          + (0xDC00 + (c.toNat - 0x10000) % 0x400 - 0xDC00) = c.toNat := by omega
      rw [h3, Char.ofNat_toNat, ih]

theorem lexString_quoted (s : List Char) : ∀ (acc : List Nat) (rest : List Char),
    lexString acc (s.flatMap quoteChar ++ '"' :: rest)
      = some (String.mk (decodeUnits none (acc.reverse ++ s.flatMap codeUnits)), rest) := by
  induction s with
  | nil =>
    intro acc rest
    simp only [List.flatMap_nil, List.nil_append, List.append_nil]
    rw [lexString.eq_def]
    simp
  | cons c cs ih =>
    intro acc rest
    simp only [List.flatMap_cons, List.append_assoc]
    rw [lexString_quoteChar, ih]
    simp

theorem lexStep_quoted (s : String) (rest : List Char) :
    lexStep '"' (s.toList.flatMap quoteChar ++ '"' :: rest) = some (some (.str s), rest) := by
  have h := lexString_quoted s.toList [] rest
  have hd := decodeUnits_codeUnits s.toList []
  have he : decodeUnits none [] = [] := rfl
  simp only [List.reverse_nil, List.nil_append] at h
  simp only [List.append_nil, he] at hd
  rw [hd] at h
  have hs : String.mk s.toList = s := rfl
  rw [hs] at h
  unfold lexStep
  rw [h]
  simp

theorem lexTokens_cons (c : Char) (rest : List Char) (t : Token) (r : List Char)
    (h : lexStep c rest = some (some t, r)) :
    lexTokens ((c :: rest).length + 1) (c :: rest)
      = (lexTokens (r.length + 1) r).map (t :: ·) := by
  have hr := lexStep_length c rest _ r h
  rw [lexTokens, h]
  simp only [List.length_cons]
  rw [lexTokens_fuel (rest.length + 1) r (r.length + 1) (by omega) (by omega)]

theorem lexTokens_quoted (s : String) (rest : List Char) :
    lexTokens (('"' :: (s.toList.flatMap quoteChar ++ '"' :: rest)).length + 1)
        ('"' :: (s.toList.flatMap quoteChar ++ '"' :: rest))
      = (lexTokens (rest.length + 1) rest).map (Token.str s :: ·) :=
  lexTokens_cons _ _ _ _ (lexStep_quoted s rest)

theorem quoteJson_toList (s : String) :
    (quoteJson s).toList = '"' :: (s.toList.flatMap quoteChar ++ ['"']) := rfl

theorem jsonStringify_sessionRecord (u e t : String) (rest : List Char) :
    (jsonStringify (sessionRecord u e t)).toList ++ rest
      = '\x7b' :: '"' :: ("username".toList.flatMap quoteChar ++ '"' :: ':' :: '"' ::
          (u.toList.flatMap quoteChar ++ '"' :: ',' :: '"' ::
          ("email".toList.flatMap quoteChar ++ '"' :: ':' :: '"' ::
          (e.toList.flatMap quoteChar ++ '"' :: ',' :: '"' ::
          ("loginTime".toList.flatMap quoteChar ++ '"' :: ':' :: '"' ::
          (t.toList.flatMap quoteChar ++ '"' :: '\x7d' :: rest)))))) := by
  simp only [sessionRecord, jsonStringify, stringifyMembers, String.toList, String.data_append,
    quoteJson]
  simp [List.append_assoc]

theorem lexTokens_sessionRecord (u e t : String) :
    lexTokens ((jsonStringify (sessionRecord u e t)).length + 1)
        (jsonStringify (sessionRecord u e t)).toList
      = some [.lbrace, .str "username", .colon, .str u, .comma, .str "email", .colon,
          .str e, .comma, .str "loginTime", .colon, .str t, .rbrace] := by
  have hl := jsonStringify_sessionRecord u e t []
  rw [List.append_nil] at hl
  have hlen : (jsonStringify (sessionRecord u e t)).length
      = (jsonStringify (sessionRecord u e t)).toList.length := rfl
  rw [hlen, hl]
  have punct : ∀ (c : Char) (tok : Token) (rest : List Char),
      lexStep c rest = some (some tok, rest) →
      lexTokens ((c :: rest).length + 1) (c :: rest)
        = (lexTokens (rest.length + 1) rest).map (tok :: ·) :=
    fun c tok rest h => lexTokens_cons c rest tok rest h
  rw [punct '\x7b' .lbrace _ rfl, lexTokens_quoted,
    punct ':' .colon _ rfl, lexTokens_quoted,
    punct ',' .comma _ rfl, lexTokens_quoted,
    punct ':' .colon _ rfl, lexTokens_quoted,
    punct ',' .comma _ rfl, lexTokens_quoted,
    punct ':' .colon _ rfl, lexTokens_quoted,
    punct '\x7d' .rbrace _ rfl]
  rfl

/-- Parsing the text that `JSON.stringify` writes for a record of three texts
gives the record back. -/
theorem jsonParse_stringify_sessionRecord (u e t : String) :
    jsonParse (jsonStringify (sessionRecord u e t)) = some (sessionRecord u e t) := by
  unfold jsonParse
  rw [lexTokens_sessionRecord]
  rfl

theorem jsonStringify_admin (t : String) :
    jsonStringify (sessionRecord "admin" "admin@documentvault.com" t)
      = "\x7b\"username\":\"admin\",\"email\":\"admin@documentvault.com\",\"loginTime\":"
          ++ quoteJson t ++ "\x7d" := by
  apply String.ext
  simp only [sessionRecord, jsonStringify, stringifyMembers, String.data_append]
  rfl

/-! ## Authentication gate: the claims -/

theorem getItem_setItem (st : Storage) (k v : String) :
    getItem (setItem st k v) k = some v := by
  induction st with
  | nil => simp [setItem, getItem]
  | cons e rest ih =>
    obtain ⟨a, w⟩ := e
    by_cases h : a = k <;> simp [setItem, getItem, h, ih]

theorem getItem_removeItem (st : Storage) (k : String) :
    getItem (removeItem st k) k = none := by
  induction st with
  | nil => rfl
  | cons e rest ih =>
    obtain ⟨a, w⟩ := e
    unfold removeItem at ih ⊢
    rw [List.filter_cons]
    by_cases h : a = k
    · simpa [h] using ih
    · have hb : (a != k) = true := by simp [h]
      simp only [hb, if_true, getItem, h, if_false]
      exact ih

/-- C11: in `handleDelete` every request, the DELETE first of all, is sent after
the user has answered yes to the confirmation; when the user declines, no
request is sent and the state, hence the collection, the error message and the
success message, is what it was. -/
theorem handleDelete_confirmation (id : Nat) (answer : Bool) (del : Option Unit)
    (get : Option (List Document)) (s : AppState) :
    (∀ r pre suf, (handleDelete id answer del get s).2 = pre ++ Event.sent r :: suf →
        Event.confirmed true ∈ pre)
      ∧ (∀ r, Event.sent r ∉ (handleDelete id false del get s).2)
      ∧ (handleDelete id false del get s).1.documents = s.documents
      ∧ (handleDelete id false del get s).1.error = s.error
      ∧ (handleDelete id false del get s).1.success = s.success
      ∧ (handleDelete id false del get s).1 = s := by
  refine ⟨?_, ?_, rfl, rfl, rfl, rfl⟩
  · intro r pre suf h
    have hhead : ∃ tail, (handleDelete id answer del get s).2
        = Event.confirmed answer :: tail ∧ (answer = false → tail = []) := by
      unfold handleDelete
      cases answer with
      | false => exact ⟨[], rfl, fun _ => rfl⟩
      | true =>
        cases del with
        | none => exact ⟨_, rfl, fun h => (by cases h)⟩
        | some u => exact ⟨_, rfl, fun h => (by cases h)⟩
    obtain ⟨tail, htr, hfalse⟩ := hhead
    rw [htr] at h
    cases pre with
    | nil =>
      simp only [List.nil_append, List.cons.injEq] at h
      cases h.1
    | cons p ps =>
      simp only [List.cons_append, List.cons.injEq] at h
      cases answer with
      | true => rw [← h.1]; exact List.mem_cons_self _ _
      | false =>
        have ht := hfalse rfl
        rw [ht] at h
        have := h.2
        cases ps <;> simp at this
  · intro r
    simp [handleDelete]

/-- Witness of C11: a confirmed delete of document 3 that succeeds. -/
theorem handleDelete_confirmation_witness :
    (handleDelete 3 true (some ()) (some []) sampleState).2
        = [.confirmed true] ++ Event.sent (.deleteDocument 3)
            :: [.resolved (.deleteDocument 3), .sent .getDocuments, .timeout 3000,
                .resolved .getDocuments]
      ∧ Event.confirmed true ∈ [Event.confirmed true] :=
  ⟨rfl, (handleDelete_confirmation 3 true (some ()) (some []) sampleState).1
    (.deleteDocument 3) [.confirmed true] _ rfl⟩

/-- C12: submitted while the gate is not authenticated, the login ends
authenticated, with a text persisted under `documentVaultUser` that parses to
the Session of user name `admin`, email `admin@documentvault.com` and the login
time, exactly when the user name is `admin` and the password `admin123`; that
Session is then the user of the gate and the argument of `onLogin`, and the
persisted text is the one written out below. For every other pair the gate is
untouched, the error is `Invalid username or password`, the storage is
unchanged, `onLogin` is not called and the form keeps what was typed. In both
cases loading has ended. -/
theorem handleSubmit_outcome (isoNow : String) (w : AuthWorld)
    (h : w.gate.isAuthenticated = false) :
    (((handleSubmit isoNow w).1.gate.isAuthenticated = true
          ∧ ∃ text, getItem (handleSubmit isoNow w).1.storage storageKey = some text
              ∧ jsonParse text
                  = some (sessionRecord "admin" "admin@documentvault.com" isoNow))
        ↔ (w.login.formData.username = "admin" ∧ w.login.formData.password = "admin123"))
      ∧ (w.login.formData.username = "admin" ∧ w.login.formData.password = "admin123" →
          (handleSubmit isoNow w).1.gate.user
              = sessionRecord "admin" "admin@documentvault.com" isoNow
            ∧ getItem (handleSubmit isoNow w).1.storage storageKey
              = some ("\x7b\"username\":\"admin\",\"email\":\"admin@documentvault.com\",\"loginTime\":"
                  ++ quoteJson isoNow ++ "\x7d")
            ∧ memberOf (handleSubmit isoNow w).1.gate.user "username" = some (.str "admin")
            ∧ memberOf (handleSubmit isoNow w).1.gate.user "email"
              = some (.str "admin@documentvault.com")
            ∧ memberOf (handleSubmit isoNow w).1.gate.user "loginTime" = some (.str isoNow)
            ∧ isSession (handleSubmit isoNow w).1.gate.user = true
            ∧ (handleSubmit isoNow w).2
              = [.timeout 1000,
                 .onLogin (sessionRecord "admin" "admin@documentvault.com" isoNow)])
      ∧ (¬ (w.login.formData.username = "admin" ∧ w.login.formData.password = "admin123") →
          (handleSubmit isoNow w).1.gate.isAuthenticated = false
            ∧ (handleSubmit isoNow w).1.gate.user = w.gate.user
            ∧ (handleSubmit isoNow w).1.login.error = "Invalid username or password"
            ∧ (handleSubmit isoNow w).1.storage = w.storage
            ∧ (∀ u, AuthEvent.onLogin u ∉ (handleSubmit isoNow w).2)
            ∧ (handleSubmit isoNow w).1.login.formData = w.login.formData)
      ∧ (handleSubmit isoNow w).1.login.loading = false := by
  by_cases hc : w.login.formData.username = "admin" ∧ w.login.formData.password = "admin123"
  · have key : handleSubmit isoNow w
        = ({ login := { w.login with loading := false, error := "" },
             gate := handleLogin (sessionRecord "admin" "admin@documentvault.com" isoNow)
               w.gate,
             storage := setItem w.storage storageKey
               (jsonStringify (sessionRecord "admin" "admin@documentvault.com" isoNow)) },
           [.timeout 1000,
            .onLogin (sessionRecord "admin" "admin@documentvault.com" isoNow)]) := by
      simp [handleSubmit, handleSubmitBegin, handleSubmitTimeout, hc, userDataOf,
        sessionRecord]
    rw [key]
    refine ⟨⟨fun _ => hc, fun _ => ⟨rfl, _, getItem_setItem _ _ _,
        jsonParse_stringify_sessionRecord _ _ _⟩⟩,
      fun _ => ⟨rfl, ?_, rfl, rfl, rfl, rfl, rfl⟩, fun hn => absurd hc hn, rfl⟩
    rw [getItem_setItem, jsonStringify_admin]
  · have key : handleSubmit isoNow w
        = ({ w with login := { w.login with
               loading := false, error := "Invalid username or password" } },
           [.timeout 1000]) := by
      simp [handleSubmit, handleSubmitBegin, handleSubmitTimeout, hc]
    rw [key]
    refine ⟨⟨fun hh => ?_, fun hh => absurd hh hc⟩, fun hh => absurd hh hc,
      fun _ => ⟨h, rfl, rfl, rfl, ?_, rfl⟩, rfl⟩
    · have := hh.1
      simp [h] at this
    · intro u hu
      simp at hu

/-- Witness of C12: the pair `admin`, `admin123` submitted at `sampleIso`, and
the pair `admin`, `wrong`. -/
theorem handleSubmit_outcome_witness :
    (loginWorld "admin" "admin123").gate.isAuthenticated = false
      ∧ (handleSubmit sampleIso (loginWorld "admin" "admin123")).1.gate.isAuthenticated = true
      ∧ (handleSubmit sampleIso (loginWorld "admin" "admin123")).1.gate.user
          = sessionRecord "admin" "admin@documentvault.com" "2024-01-15T10:30:00.000Z"
      ∧ getItem (handleSubmit sampleIso (loginWorld "admin" "admin123")).1.storage storageKey
          = some ("\x7b\"username\":\"admin\",\"email\":\"admin@documentvault.com\","
              ++ "\"loginTime\":\"2024-01-15T10:30:00.000Z\"\x7d")
      ∧ (handleSubmit sampleIso (loginWorld "admin" "wrong")).1.login.error
          = "Invalid username or password" :=
  ⟨rfl,
    ((handleSubmit_outcome sampleIso (loginWorld "admin" "admin123") rfl).1.mpr
      ⟨rfl, rfl⟩).1,
    ((handleSubmit_outcome sampleIso (loginWorld "admin" "admin123") rfl).2.1
      ⟨rfl, rfl⟩).1,
    ((handleSubmit_outcome sampleIso (loginWorld "admin" "admin123") rfl).2.1
      ⟨rfl, rfl⟩).2.1,
    ((handleSubmit_outcome sampleIso (loginWorld "admin" "wrong") rfl).2.2.1
      (by decide)).2.2.1⟩

theorem checkAuthStatus_cases (st : Storage) (g : AuthState) :
    ((getItem st storageKey = none ∨ getItem st storageKey = some "")
        ∧ (checkAuthStatus st g).gate = { g with loading := false }
        ∧ (checkAuthStatus st g).storage = st)
      ∨ (∃ text v, getItem st storageKey = some text ∧ text ≠ "" ∧ jsonParse text = some v
        ∧ (checkAuthStatus st g).gate
            = { isAuthenticated := true, user := v, loading := false }
        ∧ (checkAuthStatus st g).storage = st)
      ∨ (∃ text, getItem st storageKey = some text ∧ text ≠ "" ∧ jsonParse text = none
        ∧ (checkAuthStatus st g).gate = { g with loading := false }
        ∧ (checkAuthStatus st g).storage = removeItem st storageKey) := by
  unfold checkAuthStatus
  cases hg : getItem st storageKey with
  | none => left; exact ⟨Or.inl rfl, rfl, rfl⟩
  | some text =>
    by_cases he : text = ""
    · left
      subst he
      exact ⟨Or.inr rfl, by simp, by simp⟩
    · cases hp : jsonParse text with
      | some v =>
        right; left
        exact ⟨text, v, rfl, he, hp, by simp [he, hp], by simp [he, hp]⟩
      | none =>
        right; right
        exact ⟨text, rfl, he, hp, by simp [he, hp], by simp [he, hp]⟩

/-- C13: the gate should start authenticated only on a valid Session, so that
the user of an authenticated gate can be displayed. For the entry that holds
the text `null` the startup check ends with loading over and the gate
authenticated with user `null`, which is no Session, and the render of the
authenticated application throws; likewise the entry `42` authenticates with
the number 42 as user. -/
theorem checkAuthStatus_null_entry_authenticates :
    getItem (storageWith "null") storageKey = some "null"
      ∧ (checkAuthStatus (storageWith "null") AuthState.initial).gate.isAuthenticated = true
      ∧ (checkAuthStatus (storageWith "null") AuthState.initial).gate.user = .null
      ∧ (checkAuthStatus (storageWith "null") AuthState.initial).gate.loading = false
      ∧ isSession (checkAuthStatus (storageWith "null") AuthState.initial).gate.user = false
      ∧ renderGate (checkAuthStatus (storageWith "null") AuthState.initial).gate = none
      ∧ (checkAuthStatus (storageWith "42") AuthState.initial).gate.isAuthenticated = true
      ∧ (checkAuthStatus (storageWith "42") AuthState.initial).gate.user = .num "42"
      ∧ isSession (checkAuthStatus (storageWith "42") AuthState.initial).gate.user = false :=
  ⟨rfl, rfl, rfl, rfl, rfl, rfl, rfl, rfl, rfl⟩

/-- At startup the gate is authenticated exactly when the entry
`documentVaultUser` is present, not empty and parses as JSON; the user is then
the parsed value. Otherwise the gate is not authenticated and the user is
`null`. Loading has ended in every case. -/
theorem checkAuthStatus_startup (st : Storage) :
    ((checkAuthStatus st AuthState.initial).gate.isAuthenticated = true
        ↔ ∃ text v, getItem st storageKey = some text ∧ text ≠ "" ∧ jsonParse text = some v)
      ∧ (∀ text v, getItem st storageKey = some text → text ≠ "" → jsonParse text = some v →
          (checkAuthStatus st AuthState.initial).gate.user = v)
      ∧ ((checkAuthStatus st AuthState.initial).gate.isAuthenticated = false →
          (checkAuthStatus st AuthState.initial).gate.user = .null)
      ∧ (checkAuthStatus st AuthState.initial).gate.loading = false := by
  rcases checkAuthStatus_cases st AuthState.initial with
    ⟨hg, hgate, _⟩ | ⟨text, v, hg, hne, hp, hgate, _⟩ | ⟨text, hg, hne, hp, hgate, _⟩
  · rw [hgate]
    refine ⟨⟨fun h => (by cases h), ?_⟩, ?_, fun _ => rfl, rfl⟩
    · rintro ⟨text, v, ht, hne, hp⟩
      rcases hg with hg | hg
      · rw [hg] at ht; cases ht
      · rw [hg] at ht
        exact absurd (Option.some.inj ht).symm hne
    · intro text v ht hne hp
      rcases hg with hg | hg
      · rw [hg] at ht; cases ht
      · rw [hg] at ht
        exact absurd (Option.some.inj ht).symm hne
  · rw [hgate]
    refine ⟨⟨fun _ => ⟨text, v, hg, hne, hp⟩, fun _ => rfl⟩, ?_, fun h => (by cases h), rfl⟩
    intro text' v' ht _ hp'
    rw [hg] at ht
    cases ht
    rw [hp] at hp'
    exact Option.some.inj hp'
  · rw [hgate]
    refine ⟨⟨fun h => (by cases h), ?_⟩, ?_, fun _ => rfl, rfl⟩
    · rintro ⟨text', v', ht, _, hp'⟩
      rw [hg] at ht
      cases ht
      rw [hp] at hp'
      cases hp'
    · intro text' v' ht _ hp'
      rw [hg] at ht
      cases ht
      rw [hp] at hp'
      cases hp'

/-- A startup check on the storage that a successful login has written starts
the gate authenticated with the Session of that login, for every login time,
and the application is rendered with its user name and email. -/
theorem checkAuthStatus_after_login (isoNow : String) (w : AuthWorld)
    (hu : w.login.formData.username = "admin") (hp : w.login.formData.password = "admin123") :
    (checkAuthStatus (handleSubmit isoNow w).1.storage AuthState.initial).gate.isAuthenticated
        = true
      ∧ (checkAuthStatus (handleSubmit isoNow w).1.storage AuthState.initial).gate.user
        = sessionRecord "admin" "admin@documentvault.com" isoNow
      ∧ renderGate (checkAuthStatus (handleSubmit isoNow w).1.storage AuthState.initial).gate
        = some (.application (some (.str "admin")) (some (.str "admin@documentvault.com"))) := by
  have hst : getItem (handleSubmit isoNow w).1.storage storageKey
      = some (jsonStringify (sessionRecord "admin" "admin@documentvault.com" isoNow)) := by
    simp [handleSubmit, handleSubmitBegin, handleSubmitTimeout, hu, hp, userDataOf,
      sessionRecord, getItem_setItem]
  have hparse := jsonParse_stringify_sessionRecord "admin" "admin@documentvault.com" isoNow
  have hne : jsonStringify (sessionRecord "admin" "admin@documentvault.com" isoNow) ≠ "" := by
    intro he
    rw [he] at hparse
    cases hparse
  have hrun : (checkAuthStatus (handleSubmit isoNow w).1.storage AuthState.initial).gate
      = { isAuthenticated := true,
          user := sessionRecord "admin" "admin@documentvault.com" isoNow,
          loading := false } := by
    unfold checkAuthStatus
    rw [hst]
    simp [hne, hparse]
  rw [hrun]
  exact ⟨rfl, rfl, rfl⟩

/-- C14 (as stated, refuted): the empty text does not parse as JSON, yet an
entry that holds it is not deleted by the startup check. -/
theorem checkAuthStatus_keeps_empty_entry :
    jsonParse "" = none
      ∧ getItem (storageWith "") storageKey = some ""
      ∧ getItem (checkAuthStatus (storageWith "") AuthState.initial).storage storageKey
          = some "" :=
  ⟨rfl, rfl, rfl⟩

/-- C14 (amended): when the entry exists and does not parse as JSON, the startup
check leaves the gate not authenticated with user `null` and ends loading; it
deletes the entry when its text is not empty, and leaves an empty entry in
place. -/
theorem checkAuthStatus_unparsable (st : Storage) (text : String)
    (hget : getItem st storageKey = some text) (hbad : jsonParse text = none) :
    (checkAuthStatus st AuthState.initial).gate.isAuthenticated = false
      ∧ (checkAuthStatus st AuthState.initial).gate.user = .null
      ∧ (checkAuthStatus st AuthState.initial).gate.loading = false
      ∧ (text ≠ "" →
          (checkAuthStatus st AuthState.initial).storage = removeItem st storageKey
            ∧ getItem (checkAuthStatus st AuthState.initial).storage storageKey = none)
      ∧ (text = "" → (checkAuthStatus st AuthState.initial).storage = st) := by
  rcases checkAuthStatus_cases st AuthState.initial with
    ⟨hg, hgate, hst⟩ | ⟨text', v, hg, _, hp, _, _⟩ | ⟨text', hg, hne, _, hgate, hst⟩
  · rw [hgate, hst]
    refine ⟨rfl, rfl, rfl, fun hne => ?_, fun _ => rfl⟩
    rcases hg with hg | hg
    · rw [hg] at hget; cases hget
    · rw [hg] at hget
      exact absurd (Option.some.inj hget).symm hne
  · rw [hg] at hget
    cases hget
    rw [hp] at hbad
    cases hbad
  · rw [hgate, hst]
    rw [hg] at hget
    cases hget
    exact ⟨rfl, rfl, rfl, fun _ => ⟨rfl, getItem_removeItem _ _⟩, fun he => absurd he hne⟩

/-- Witness of C14: an entry that holds an opening brace followed by `oops`. -/
theorem checkAuthStatus_unparsable_witness :
    getItem (storageWith "\x7boops") storageKey = some "\x7boops"
      ∧ jsonParse "\x7boops" = none
      ∧ getItem (checkAuthStatus (storageWith "\x7boops") AuthState.initial).storage
          storageKey = none :=
  ⟨rfl, rfl,
    ((checkAuthStatus_unparsable (storageWith "\x7boops") "\x7boops" rfl rfl).2.2.2.1
      (by decide)).2⟩

/-- C15: `handleLogout` leaves the gate not authenticated with user `null` and
the storage without the entry `documentVaultUser`; a startup check run on that
storage starts not authenticated with user `null` and leaves the storage as it
is. -/
theorem handleLogout_then_startup (st : Storage) (g : AuthState) :
    (handleLogout st g).1.isAuthenticated = false
      ∧ (handleLogout st g).1.user = .null
      ∧ (handleLogout st g).2 = removeItem st storageKey
      ∧ getItem (handleLogout st g).2 storageKey = none
      ∧ (checkAuthStatus (handleLogout st g).2 AuthState.initial).gate.isAuthenticated = false
      ∧ (checkAuthStatus (handleLogout st g).2 AuthState.initial).gate.user = .null
      ∧ (checkAuthStatus (handleLogout st g).2 AuthState.initial).storage
          = (handleLogout st g).2 := by
  have hnone : getItem (handleLogout st g).2 storageKey = none :=
    getItem_removeItem st storageKey
  have hrun : checkAuthStatus (handleLogout st g).2 AuthState.initial
      = { gate := { AuthState.initial with loading := false },
          storage := (handleLogout st g).2, events := [] } := by
    unfold checkAuthStatus
    rw [hnone]
  rw [hrun]
  exact ⟨rfl, rfl, rfl, hnone, rfl, rfl, rfl⟩

end DigitalVault
